import Mathlib

/-!
Resource parsing and icon reconstruction (`src/resources.cpp`).

A shallow embedding of the resource-section code of the PE parser: the raw-data
accessor of a `Resource`, the icon reconstructor `reconstruct_icon`, the directory
reader `PE::read_image_resource_directory` and the tree walk `PE::_parse_resources`.

Conventions of the embedding.

* A byte is a `Nat`; a byte buffer (`std::vector<boost::uint8_t>`) is a `List Nat`.
* Fixed-width integers are `Nat`s; where the C++ narrows or adds in 32 bits the
  embedding reduces modulo `2 ^ 32` explicitly.
* A file on disk is its content (`List Nat`); the file system maps a path to the
  content of the file, or to `none` when `fopen` fails.
* `fseek(f, offset, SEEK_SET)` with a non-negative offset succeeds on a regular file,
  also past the end of the file; the following `fread` is then short.
-/

namespace sg

/-! ## Data model -/

/-- Modelled from the spec: the class `Resource` is declared in `resources.h`, which is
not part of the sources at hand. The fields are the ones the constructor calls of
`_parse_resources` (lines 156-171) pass and the accessors of `resources.cpp` read:
type, name, numeric id, language, code page, size, offset in the file, path. -/
structure Resource where
  type : String
  name : String
  id : Nat
  language : String
  codepage : Nat
  size : Nat
  offset_in_file : Nat
  path_to_pe : String
deriving DecidableEq

/-- Modelled from the spec: the constructor of `Resource` taking a name (declared in
`resources.h`). A resource has either a name or a numeric id; the id of a named resource
is taken to be 0. -/
def Resource.named (type name language : String) (codepage size offset : Nat)
    (path : String) : Resource :=
  { type := type, name := name, id := 0, language := language, codepage := codepage,
    size := size, offset_in_file := offset, path_to_pe := path }

/-- Modelled from the spec: the constructor of `Resource` taking a numeric id (declared
in `resources.h`). A resource has either a name or a numeric id; the name of a numbered
resource is empty. -/
def Resource.numbered (type : String) (id : Nat) (language : String)
    (codepage size offset : Nat) (path : String) : Resource :=
  { type := type, name := "", id := id, language := language, codepage := codepage,
    size := size, offset_in_file := offset, path_to_pe := path }

/-- Accessor `Resource::get_id`. -/
def Resource.get_id (r : Resource) : Nat := r.id

/-- Accessor `Resource::get_type`. -/
def Resource.get_type (r : Resource) : String := r.type

/-- Accessor `Resource::get_name`. -/
def Resource.get_name (r : Resource) : String := r.name

/-- The files the program can open: the content of the file at a path, `none` when
`fopen` fails. -/
abbrev FileSystem := String → Option (List Nat)

/-- Modelled from the spec: `group_icon_directory_entry` is declared in `resources.h`.
In memory it is 16 bytes: four `uint8` (width, height, colour count, reserved), two
`uint16` (planes, bit count) and two `uint32` (bytes in resource, id); the id is a
`uint16` on disk (comment at lines 305-306). -/
structure group_icon_directory_entry where
  Width : Nat
  Height : Nat
  ColorCount : Nat
  Reserved : Nat
  Planes : Nat
  BitCount : Nat
  BytesInRes : Nat
  Id : Nat
deriving DecidableEq

/-- Modelled from the spec: `group_icon_directory` is declared in `resources.h`: three
`uint16` (reserved, type, count) followed by the vector of entries. The field `Type` of
the source is spelled `Type_`, `Type` being reserved. -/
structure group_icon_directory where
  Reserved : Nat
  Type_ : Nat
  Count : Nat
  Entries : List group_icon_directory_entry
deriving DecidableEq

/-! ## Byte-level helpers -/

/-- The two bytes of a 16-bit value, least significant first. -/
def le16 (v : Nat) : List Nat := [v % 256, v / 256 % 256]

/-- The four bytes of a 32-bit value, least significant first. -/
def le32 (v : Nat) : List Nat :=
  [v % 256, v / 256 % 256, v / 65536 % 256, v / 16777216 % 256]

/-- The value of four bytes read as a little-endian 32-bit integer. -/
def le32_value (bs : List Nat) : Nat :=
  bs.getD 0 0 + 256 * bs.getD 1 0 + 65536 * bs.getD 2 0 + 16777216 * bs.getD 3 0

/-- The first six bytes of a `group_icon_directory` in memory: reserved, type, count. -/
def group_icon_directory.header_bytes (d : group_icon_directory) : List Nat :=
  le16 d.Reserved ++ le16 d.Type_ ++ le16 d.Count

/-- The first twelve bytes of a `group_icon_directory_entry` in memory: everything but
the last field. -/
def group_icon_directory_entry.bytes12 (e : group_icon_directory_entry) : List Nat :=
  [e.Width % 256, e.Height % 256, e.ColorCount % 256, e.Reserved % 256]
    ++ le16 e.Planes ++ le16 e.BitCount ++ le32 e.BytesInRes

/-- The effect of `memcpy(&res[pos], src, src.size())` on the value of the vector `res`:
the bytes that fall below `res.size()` are overwritten. The vector keeps its capacity
through `clear()` and `insert`, and every `memcpy` of `reconstruct_icon` ends below the
capacity reserved by `res.resize(header_size)`, so bytes copied at or above `res.size()`
land in spare storage and are not part of the value of the vector. -/
def memcpy (res : List Nat) (pos : Nat) (src : List Nat) : List Nat :=
  res.take pos ++ src.take (res.length - pos) ++ res.drop (pos + src.length)

/-! ## Raw data of a resource -/

/-- `Resource::_reach_data` (lines 350-365): open the file and seek to the offset of the
resource. The result is the part of the file from the offset on, `none` for `NULL`. -/
def Resource._reach_data (fs : FileSystem) (r : Resource) : Option (List Nat) :=
  match fs r.path_to_pe with
  | none => none
  | some content =>
    if r.offset_in_file = 0 then none else some (content.drop r.offset_in_file)

/-- `Resource::get_raw_data` (lines 184-204): up to `_size` bytes from the offset of the
resource; a short read shrinks the buffer; empty when the data cannot be reached. -/
def Resource.get_raw_data (fs : FileSystem) (r : Resource) : List Nat :=
  match r._reach_data fs with
  | none => []
  | some stream => stream.take r.size

/-! ## Icon reconstruction -/

/-- The search of lines 384-392 of `reconstruct_icon`: the first resource of the table
whose id equals the id of the entry; `none` stands for the null pointer. -/
def locate_icon (resources : List Resource) (e : group_icon_directory_entry) :
    Option Resource :=
  resources.find? (fun r => r.get_id == e.Id)

/-- Lines 400-418 of `reconstruct_icon`: the work done for entry `i` once its resource
is located. -/
def reconstruct_icon_body (fs : FileSystem) (d : group_icon_directory) (i : Nat)
    (e : group_icon_directory_entry) (icon : Resource) (res : List Nat) : List Nat :=
  let icon_bytes := icon.get_raw_data fs
  let res1 := memcpy res (6 + i * 16) e.bytes12
  let size_fix := res1.length % 2 ^ 32
  let res2 := memcpy res1 (6 + (i + 1) * 16 - 4) (le32 size_fix)
  if d.Type_ = 1 then res2 ++ icon_bytes
  else if icon_bytes.length > 4 then res2 ++ icon_bytes.drop 4
  else []

/-- The loop of lines 381-419 of `reconstruct_icon`, with `n` iterations left and the
loop counter at `i`. The result is `none` when `directory->Entries[i]` is read past the
end of the vector, which is undefined in C++. -/
def reconstruct_icon_loop (fs : FileSystem) (d : group_icon_directory)
    (resources : List Resource) : Nat → Nat → List Nat → Option (List Nat)
  | 0, _, res => some res
  | n + 1, i, res =>
    match d.Entries[i]? with
    | none => none
    | some e =>
      match locate_icon resources e with
      | none => some []
      | some icon =>
        reconstruct_icon_loop fs d resources n (i + 1)
          (reconstruct_icon_body fs d i e icon res)

/-- The function `reconstruct_icon` (lines 369-422). The directory is a pointer that may
be null (`none`). -/
def reconstruct_icon (fs : FileSystem) (directory : Option group_icon_directory)
    (resources : List Resource) : Option (List Nat) :=
  match directory with
  | none => some []
  | some d =>
    let header_size := 6 + d.Count * 16
    let res := List.replicate header_size 0
    let res := memcpy res 0 d.header_bytes
    reconstruct_icon_loop fs d resources d.Count 0 res

/-! ## The resource tree -/

/-- Modelled from the spec: `image_resource_directory_entry` is declared in `pe.h`: two
`uint32` read from the file (`NameOrId`, `OffsetToData`) and the resolved name. -/
structure image_resource_directory_entry where
  NameOrId : Nat
  OffsetToData : Nat
  NameStr : String
deriving DecidableEq

/-- Modelled from the spec: `image_resource_directory` is declared in `pe.h`: a header of
two `uint32` and four `uint16` (16 bytes, line 42) followed by the vector of entries. -/
structure image_resource_directory where
  Characteristics : Nat
  TimeDateStamp : Nat
  MajorVersion : Nat
  MinorVersion : Nat
  NumberOfNamedEntries : Nat
  NumberOfIdEntries : Nat
  Entries : List image_resource_directory_entry
deriving DecidableEq

/-- Modelled from the spec: `image_resource_data_entry` is declared in `pe.h`: four
`uint32` (offset to data, size, code page, reserved). -/
structure image_resource_data_entry where
  OffsetToData : Nat
  Size : Nat
  Codepage : Nat
  Reserved : Nat
deriving DecidableEq

/-- The part of a `PE` object and of its open file that the resource code reads. The
members that `resources.cpp` calls and that are defined elsewhere are parameters:

* `rva_to_offset` is `_rva_to_offset`, with 0 for an address that is not mapped;
* `resource_rva` is `_ioh.directories[IMAGE_DIRECTORY_ENTRY_RESOURCE].VirtualAddress`;
* `reach_directory` is the outcome of `_reach_directory(f, IMAGE_DIRECTORY_ENTRY_RESOURCE)`:
  the position at which it leaves the file, `none` when it returns false;
* `read_string_at_offset pos offset` is `utils::read_string_at_offset(f, offset, s, true)`
  called with the file at position `pos`: its result, the string, and the position at
  which it leaves the file;
* `translate_type` and `translate_lang` are `nt::translate_to_flag` on the tables
  `nt::RESOURCE_TYPES` and `nt::LANG_IDS`. -/
structure PE where
  path : String
  content : List Nat
  resource_rva : Nat
  rva_to_offset : Nat → Nat
  reach_directory : Option Nat
  read_string_at_offset : Nat → Nat → Bool × String × Nat
  translate_type : Nat → String
  translate_lang : Nat → String

/-- Accessor `PE::get_path`. -/
def PE.get_path (pe : PE) : String := pe.path

/-- The value of two bytes read as a little-endian 16-bit integer. -/
def le16_value (bs : List Nat) : Nat := bs.getD 0 0 + 256 * bs.getD 1 0

/-- The bytes that `fread(buf, 1, n, f)` delivers with the file at position `pos`. -/
def fread (content : List Nat) (pos n : Nat) : List Nat := (content.drop pos).take n

/-- The header of an `IMAGE_RESOURCE_DIRECTORY` as `fread` lays it over the structure. -/
def parse_directory_header (bs : List Nat) : image_resource_directory :=
  { Characteristics := le32_value bs
    TimeDateStamp := le32_value (bs.drop 4)
    MajorVersion := le16_value (bs.drop 8)
    MinorVersion := le16_value (bs.drop 10)
    NumberOfNamedEntries := le16_value (bs.drop 12)
    NumberOfIdEntries := le16_value (bs.drop 14)
    Entries := [] }

/-- The loop of lines 50-75 of `read_image_resource_directory`, with `n` entries left to
read and the file at position `pos`: whether every read succeeded, the entries pushed
(in file order, those read before a failure included), and the final position. -/
def read_directory_entries (pe : PE) :
    Nat → Nat → Bool × List image_resource_directory_entry × Nat
  | 0, pos => (true, [], pos)
  | n + 1, pos =>
    let bytes := fread pe.content pos 8
    if bytes.length ≠ 8 then (false, [], pos + bytes.length)
    else
      let NameOrId := le32_value bytes
      let OffsetToData := le32_value (bytes.drop 4)
      if NameOrId &&& 0x80000000 ≠ 0 then
        let offset := (pe.rva_to_offset pe.resource_rva + (NameOrId &&& 0x7FFFFFFF)) % 2 ^ 32
        if offset = 0 then (false, [], pos + 8)
        else
          match pe.read_string_at_offset (pos + 8) offset with
          | (false, _, pos2) => (false, [], pos2)
          | (true, NameStr, pos2) =>
            let rest := read_directory_entries pe n pos2
            (rest.1, ⟨NameOrId, OffsetToData, NameStr⟩ :: rest.2.1, rest.2.2)
      else
        let rest := read_directory_entries pe n (pos + 8)
        (rest.1, ⟨NameOrId, OffsetToData, ""⟩ :: rest.2.1, rest.2.2)

/-- Lines 32-40 of `read_image_resource_directory`: the position from which the header
is read, with the file at position `pos`. A non-zero `offset` is relative to the resource
directory and is sought; `none` when the function returns false there. -/
def directory_start (pe : PE) (pos offset : Nat) : Option Nat :=
  if offset ≠ 0 then
    let target := (pe.rva_to_offset pe.resource_rva + offset) % 2 ^ 32
    if target = 0 then none else some target
  else some pos

/-- Lines 42-77 of `read_image_resource_directory`: the header and the entries, read
with the file at position `p`. -/
def read_directory_body (pe : PE) (p : Nat) : Bool × image_resource_directory × Nat :=
  let bytes := fread pe.content p 16
  if bytes.length ≠ 16 then (false, parse_directory_header bytes, p + bytes.length)
  else
    let dir := parse_directory_header bytes
    let r := read_directory_entries pe (dir.NumberOfIdEntries + dir.NumberOfNamedEntries)
      (p + 16)
    (r.1, { dir with Entries := r.2.1 }, r.2.2)

/-- The function `PE::read_image_resource_directory` (lines 30-78), called with the file
at position `pos`: the returned boolean, the directory as the caller finds it afterwards
(its entries are those pushed before a failure; it is a fresh object at every call
site), and the position at which the file is left. -/
def read_image_resource_directory (pe : PE) (pos offset : Nat) :
    Bool × image_resource_directory × Nat :=
  match directory_start pe pos offset with
  | none => (false, parse_directory_header [], pos)
  | some p => read_directory_body pe p

/-- The `IMAGE_RESOURCE_DATA_ENTRY` as `fread` lays it over the structure. -/
def parse_data_entry (bs : List Nat) : image_resource_data_entry :=
  { OffsetToData := le32_value bs
    Size := le32_value (bs.drop 4)
    Codepage := le32_value (bs.drop 8)
    Reserved := le32_value (bs.drop 12) }

/-- Lines 122-172 of `_parse_resources`: the `Resource` built for the leaf under the
Type entry `it`, the Name entry `it2` and the Language entry `it3`. -/
def flatten_leaf (pe : PE) (it it2 it3 : image_resource_directory_entry)
    (entry : image_resource_data_entry) : Resource :=
  let type := if it.NameOrId &&& 0x80000000 ≠ 0 then it.NameStr
    else pe.translate_type it.NameOrId
  let name := if it2.NameOrId &&& 0x80000000 ≠ 0 then it2.NameStr else ""
  let id := if it2.NameOrId &&& 0x80000000 ≠ 0 then 0 else it2.NameOrId
  let language := if it3.NameOrId &&& 0x80000000 ≠ 0 then it3.NameStr
    else pe.translate_lang it3.NameOrId
  let offset := pe.rva_to_offset entry.OffsetToData
  if name ≠ "" then
    Resource.named type name language entry.Codepage entry.Size offset pe.get_path
  else
    Resource.numbered type id language entry.Codepage entry.Size offset pe.get_path

/-- Lines 109-120 of `_parse_resources`: reaching and reading the data entry of the
Language entry `it3`; `none` when the function returns false there, otherwise the entry
and the position of the file after it. -/
def read_data_entry (pe : PE) (it3 : image_resource_directory_entry) :
    Option (image_resource_data_entry × Nat) :=
  let offset := pe.rva_to_offset
    ((pe.resource_rva + (it3.OffsetToData &&& 0x7FFFFFFF)) % 2 ^ 32)
  if offset = 0 then none
  else
    let bytes := fread pe.content offset 16
    if bytes.length ≠ 16 then none else some (parse_data_entry bytes, offset + 16)

/-- The loop of lines 104-175 of `_parse_resources` over the entries of a Language node:
`false` when the function returns false inside it, the resource table, the position. -/
def parse_language_entries (pe : PE) (it it2 : image_resource_directory_entry) :
    List image_resource_directory_entry → List Resource → Nat → Bool × List Resource × Nat
  | [], table, pos => (true, table, pos)
  | it3 :: rest, table, pos =>
    match read_data_entry pe it3 with
    | none => (false, table, pos)
    | some (entry, pos2) =>
      parse_language_entries pe it it2 rest (table ++ [flatten_leaf pe it it2 it3 entry]) pos2

/-- The loop of lines 98-176 of `_parse_resources` over the entries of a Type node. -/
def parse_name_entries (pe : PE) (it : image_resource_directory_entry) :
    List image_resource_directory_entry → List Resource → Nat → Bool × List Resource × Nat
  | [], table, pos => (true, table, pos)
  | it2 :: rest, table, pos =>
    let name := read_image_resource_directory pe pos (it2.OffsetToData &&& 0x7FFFFFFF)
    match parse_language_entries pe it it2 name.2.1.Entries table name.2.2 with
    | (false, table2, pos2) => (false, table2, pos2)
    | (true, table2, pos2) => parse_name_entries pe it rest table2 pos2

/-- The loop of lines 92-177 of `_parse_resources` over the entries of the root. -/
def parse_type_entries (pe : PE) :
    List image_resource_directory_entry → List Resource → Nat → Bool × List Resource × Nat
  | [], table, pos => (true, table, pos)
  | it :: rest, table, pos =>
    let type := read_image_resource_directory pe pos (it.OffsetToData &&& 0x7FFFFFFF)
    match parse_name_entries pe it type.2.1.Entries table type.2.2 with
    | (false, table2, pos2) => (false, table2, pos2)
    | (true, table2, pos2) => parse_type_entries pe rest table2 pos2

/-- The function `PE::_parse_resources` (lines 82-180), run with `_resource_table`
holding `table`: the returned boolean and `_resource_table` afterwards. The value that
`read_image_resource_directory` returns is dropped at the three call sites, as in the
source. -/
def _parse_resources (pe : PE) (table : List Resource) : Bool × List Resource :=
  match pe.reach_directory with
  | none => (true, table)
  | some pos =>
    let root := read_image_resource_directory pe pos 0
    let r := parse_type_entries pe root.2.1.Entries table root.2.2
    (r.1, r.2.1)

/-! ## Layout of a reconstructed icon -/

/-- The raw bytes of the resource that `reconstruct_icon` locates for an entry, empty
when none is located. -/
def matched_raw (fs : FileSystem) (resources : List Resource)
    (e : group_icon_directory_entry) : List Nat :=
  match locate_icon resources e with
  | none => []
  | some icon => icon.get_raw_data fs

/-- The bytes that lines 410-415 append for an entry: the raw bytes of the located
resource for an icon directory, the raw bytes without their first four for any other
directory; `none` when no resource is located or the branch of line 416 is taken. -/
def entry_payload (fs : FileSystem) (d : group_icon_directory) (resources : List Resource)
    (e : group_icon_directory_entry) : Option (List Nat) :=
  match locate_icon resources e with
  | none => none
  | some icon =>
    if d.Type_ = 1 then some (icon.get_raw_data fs)
    else if (icon.get_raw_data fs).length > 4 then some ((icon.get_raw_data fs).drop 4)
    else none

/-- The directory records of an icon file: for each entry its first twelve bytes and the
32-bit offset `(base + p) % 2 ^ 32`, where `p` is the number of payload bytes of the
entries before it and `pay` gives the payload of an entry. -/
def icon_records (base : Nat) (pay : group_icon_directory_entry → List Nat) :
    List group_icon_directory_entry → Nat → List Nat
  | [], _ => []
  | e :: es, p =>
    e.bytes12 ++ le32 ((base + p) % 2 ^ 32) ++ icon_records base pay es (p + (pay e).length)

/-- The payloads of the entries, one after the other. -/
def icon_payloads (pay : group_icon_directory_entry → List Nat) :
    List group_icon_directory_entry → List Nat
  | [] => []
  | e :: es => pay e ++ icon_payloads pay es

/-- The sum of the lengths of the payloads of the entries. -/
def payload_total (pay : group_icon_directory_entry → List Nat) :
    List group_icon_directory_entry → Nat
  | [] => 0
  | e :: es => (pay e).length + payload_total pay es

/-! ## Sample inputs -/

/-- A file system with one 16-byte file content behind every path. -/
def sample_fs : FileSystem :=
  fun _ => some [10, 11, 12, 13, 14, 15, 16, 17, 18, 19, 20, 21, 22, 23, 24, 25]

/-- An icon resource with id 1 and the raw bytes 11, 12, 13. -/
def icon_a : Resource := Resource.numbered "RT_ICON" 1 "en" 0 3 1 "a.exe"

/-- An icon resource with id 2 and the eight raw bytes 14 to 21. -/
def icon_b : Resource := Resource.numbered "RT_ICON" 2 "en" 0 8 4 "a.exe"

/-- A manifest resource with id 1 and the raw bytes 19, 20, 21, 22. -/
def manifest_a : Resource := Resource.numbered "RT_MANIFEST" 1 "en" 0 4 9 "a.exe"

/-- A cursor resource with id 1 and three raw bytes. -/
def cursor_a : Resource := Resource.numbered "RT_CURSOR" 1 "en" 0 3 1 "a.exe"

/-- A cursor resource with id 2 and eight raw bytes. -/
def cursor_b : Resource := Resource.numbered "RT_CURSOR" 2 "en" 0 8 4 "a.exe"

/-- A cursor resource with id 3 and exactly four raw bytes. -/
def cursor_c : Resource := Resource.numbered "RT_CURSOR" 3 "en" 0 4 1 "a.exe"

/-- A cursor resource with id 4 and six raw bytes. -/
def cursor_d : Resource := Resource.numbered "RT_CURSOR" 4 "en" 0 6 2 "a.exe"

/-- A directory entry with id 1. -/
def entry_a : group_icon_directory_entry :=
  { Width := 16, Height := 16, ColorCount := 0, Reserved := 0, Planes := 1, BitCount := 32,
    BytesInRes := 3, Id := 1 }

/-- A directory entry with id 2. -/
def entry_b : group_icon_directory_entry :=
  { Width := 32, Height := 32, ColorCount := 0, Reserved := 0, Planes := 1, BitCount := 32,
    BytesInRes := 8, Id := 2 }

/-- A directory entry with id 3. -/
def entry_c : group_icon_directory_entry :=
  { Width := 32, Height := 32, ColorCount := 0, Reserved := 0, Planes := 1, BitCount := 32,
    BytesInRes := 4, Id := 3 }

/-- A directory entry with id 4. -/
def entry_d : group_icon_directory_entry :=
  { Width := 48, Height := 48, ColorCount := 0, Reserved := 0, Planes := 1, BitCount := 32,
    BytesInRes := 6, Id := 4 }

/-- An icon directory with the two entries `entry_a` and `entry_b`. -/
def icon_dir_ab : group_icon_directory :=
  { Reserved := 0, Type_ := 1, Count := 2, Entries := [entry_a, entry_b] }

/-- An icon directory whose `Count` is 0 although it lists `entry_a`. -/
def icon_dir_count0 : group_icon_directory :=
  { Reserved := 0, Type_ := 1, Count := 0, Entries := [entry_a] }

/-- An icon directory with the single entry `entry_a`. -/
def icon_dir_a : group_icon_directory :=
  { Reserved := 0, Type_ := 1, Count := 1, Entries := [entry_a] }

/-- A cursor directory with the two entries `entry_a` and `entry_b`. -/
def cursor_dir_ab : group_icon_directory :=
  { Reserved := 0, Type_ := 2, Count := 2, Entries := [entry_a, entry_b] }

/-- A cursor directory with the single entry `entry_c`. -/
def cursor_dir_c : group_icon_directory :=
  { Reserved := 0, Type_ := 2, Count := 1, Entries := [entry_c] }

/-- A cursor directory whose `Count` is 0 although it lists `entry_b`. -/
def cursor_dir_count0 : group_icon_directory :=
  { Reserved := 0, Type_ := 2, Count := 0, Entries := [entry_b] }

/-- A cursor directory with the two entries `entry_b` and `entry_d`. -/
def cursor_dir_bd : group_icon_directory :=
  { Reserved := 0, Type_ := 2, Count := 2, Entries := [entry_b, entry_d] }

/-- A file system with a file of `2 ^ 32` bytes, all equal to 7, behind every path. -/
def big_fs : FileSystem := fun _ => some (List.replicate 4294967296 7)

/-- An icon resource with id 1 and `2 ^ 32 - 38` raw bytes. -/
def big_icon : Resource := Resource.numbered "RT_ICON" 1 "en" 0 4294967258 1 "a.exe"

/-- An icon resource with id 2 and two raw bytes. -/
def small_icon : Resource := Resource.numbered "RT_ICON" 2 "en" 0 2 1 "a.exe"

/-- Pairs of bytes read as UTF-16 code units of the basic plane. -/
def decode_units : List Nat → List Char
  | a :: b :: rest => Char.ofNat (a + 256 * b) :: decode_units rest
  | _ => []

/-- Modelled from the spec: `utils::read_string_at_offset` is defined outside
`resources.cpp`. It reads a 16-bit length followed by that many UTF-16 code units at
`offset` and leaves the file where it was; it fails when the length cannot be read. -/
def read_unicode_string_at (content : List Nat) (pos offset : Nat) : Bool × String × Nat :=
  let len_bytes := fread content offset 2
  if len_bytes.length ≠ 2 then (false, "", pos)
  else (true, String.mk (decode_units (fread content (offset + 2) (2 * le16_value len_bytes))),
    pos)

/-- A table of resource types for the sample images. -/
def sample_translate_type (n : Nat) : String :=
  if n = 3 then "RT_ICON" else if n = 24 then "RT_MANIFEST" else toString n

/-- A table of languages for the sample images. -/
def sample_translate_lang (n : Nat) : String :=
  if n = 1033 then "English - United States" else if n = 1036 then "French - France"
  else toString n

/-- A `PE` over a file whose addresses equal its offsets, with the resource directory at
offset 16. -/
def sample_pe (content : List Nat) : PE :=
  { path := "sample.exe"
    content := content
    resource_rva := 16
    rva_to_offset := fun rva => rva
    reach_directory := some 16
    read_string_at_offset := read_unicode_string_at content
    translate_type := sample_translate_type
    translate_lang := sample_translate_lang }

/-- A file with a resource tree of two types. `RT_ICON` has the name entry 1 with two
languages; `RT_MANIFEST` has a name entry called "AB" with one language. Relative to
offset 16: root at 0, type nodes at 32 and 88, language nodes at 56 and 112, data entries
at 136, 152 and 168, the string at 184, the data at 192. -/
def image_tree : List Nat :=
  [77, 90, 0, 0, 0, 0, 0, 0, 0, 0, 0, 0, 0, 0, 0, 0, 0, 0, 0, 0, 0, 0, 0, 0, 0, 0, 0, 0,
   0, 0, 2, 0, 3, 0, 0, 0, 32, 0, 0, 128, 24, 0, 0, 0, 88, 0, 0, 128, 0, 0, 0, 0, 0, 0,
   0, 0, 0, 0, 0, 0, 0, 0, 1, 0, 1, 0, 0, 0, 56, 0, 0, 128, 0, 0, 0, 0, 0, 0, 0, 0, 0, 0,
   0, 0, 0, 0, 2, 0, 9, 4, 0, 0, 136, 0, 0, 0, 12, 4, 0, 0, 152, 0, 0, 0, 0, 0, 0, 0, 0,
   0, 0, 0, 0, 0, 0, 0, 1, 0, 0, 0, 184, 0, 0, 128, 112, 0, 0, 128, 0, 0, 0, 0, 0, 0, 0,
   0, 0, 0, 0, 0, 0, 0, 1, 0, 9, 4, 0, 0, 168, 0, 0, 0, 208, 0, 0, 0, 4, 0, 0, 0, 228, 4,
   0, 0, 0, 0, 0, 0, 212, 0, 0, 0, 4, 0, 0, 0, 228, 4, 0, 0, 0, 0, 0, 0, 216, 0, 0, 0, 8,
   0, 0, 0, 0, 0, 0, 0, 0, 0, 0, 0, 2, 0, 65, 0, 66, 0, 0, 0, 101, 102, 103, 104, 105,
   106, 107, 108, 109, 110, 111, 112, 113, 114, 115, 116]

/-- The file `image_tree` with the second data entry of the icon moved to the relative
offset 4000, past the end of the file. -/
def image_bad_leaf : List Nat := (image_tree.set 100 160).set 101 15

/-- The file `image_tree` with the `RT_MANIFEST` node moved to the relative offset 4000,
past the end of the file. -/
def image_bad_type : List Nat := (image_tree.set 44 160).set 45 15

/-- The file `image_tree` with the name of the manifest entry cut to zero code units. -/
def image_empty_name : List Nat := image_tree.set 200 0

/-- The file `image_tree` cut four bytes into the root directory. -/
def image_truncated : List Nat := image_tree.take 20

/-! ## The leaves of a resource tree -/

/-- The directory that `read_image_resource_directory` delivers for a non-zero relative
offset; the position of the file plays no part, the function seeks first. -/
def directory_at (pe : PE) (offset : Nat) : image_resource_directory :=
  (read_image_resource_directory pe 0 offset).2.1

/-- Whether `read_image_resource_directory` succeeds for a non-zero relative offset. -/
def directory_ok (pe : PE) (offset : Nat) : Bool :=
  (read_image_resource_directory pe 0 offset).1

/-- The number of entries that the header of a directory announces. -/
def image_resource_directory.entry_count (dir : image_resource_directory) : Nat :=
  dir.NumberOfIdEntries + dir.NumberOfNamedEntries

/-- The resource of one Language entry, when its data entry can be read. -/
def leaf_of (pe : PE) (it it2 it3 : image_resource_directory_entry) : List Resource :=
  match read_data_entry pe it3 with
  | none => []
  | some (entry, _) => [flatten_leaf pe it it2 it3 entry]

/-- The resources of the entries of a Language node, in file order. -/
def language_leaves (pe : PE) (it it2 : image_resource_directory_entry) :
    List image_resource_directory_entry → List Resource
  | [] => []
  | it3 :: rest => leaf_of pe it it2 it3 ++ language_leaves pe it it2 rest

/-- The resources below the entries of a Type node, in file order. -/
def name_leaves (pe : PE) (it : image_resource_directory_entry) :
    List image_resource_directory_entry → List Resource
  | [] => []
  | it2 :: rest =>
    language_leaves pe it it2 (directory_at pe (it2.OffsetToData &&& 0x7FFFFFFF)).Entries
      ++ name_leaves pe it rest

/-- The resources below the entries of the root, in file order. -/
def type_leaves (pe : PE) : List image_resource_directory_entry → List Resource
  | [] => []
  | it :: rest =>
    name_leaves pe it (directory_at pe (it.OffsetToData &&& 0x7FFFFFFF)).Entries
      ++ type_leaves pe rest

/-- The number of Language entries below the entries of a Type node, as the headers of
the Language nodes announce them. -/
def name_leaf_count (pe : PE) (es : List image_resource_directory_entry) : Nat :=
  (es.map (fun it2 => (directory_at pe (it2.OffsetToData &&& 0x7FFFFFFF)).entry_count)).sum

/-- The number of Language entries below the entries of the root. -/
def type_leaf_count (pe : PE) (es : List image_resource_directory_entry) : Nat :=
  (es.map (fun it =>
    name_leaf_count pe (directory_at pe (it.OffsetToData &&& 0x7FFFFFFF)).Entries)).sum

/-- A resource that the walk flattens: the leaf of some Type, Name and Language entries
whose data entry was read. -/
def is_flattened_leaf (pe : PE) (r : Resource) : Prop :=
  ∃ it it2 it3 entry pos, read_data_entry pe it3 = some (entry, pos)
    ∧ r = flatten_leaf pe it it2 it3 entry

/-- The first resource of the sample tree: the icon 1 in English. -/
def sample_leaf : Resource :=
  Resource.numbered "RT_ICON" 1 "English - United States" 1252 4 208 "sample.exe"

/-- A `std::string` built from bytes: each byte is the character with that code. -/
def bytes_to_string (bs : List Nat) : String := String.mk (bs.map Char.ofNat)

/-- `Resource::interpret_as<std::string>` (lines 208-216). -/
def Resource.interpret_as_string (fs : FileSystem) (r : Resource) : String :=
  if r.type ≠ "RT_MANIFEST" then
    "Resources of type " ++ r.type ++ " cannot be interpreted as std::strings."
  else bytes_to_string (r.get_raw_data fs)

/-- The loop of lines 234-236: `n` calls of `utils::read_unicode_string(f)`. The function
is defined outside `resources.cpp` and is a parameter: from the part of the file that is
still to be read it gives the string and the part left after it. -/
def read_unicode_strings (read_unicode_string : List Nat → String × List Nat) :
    Nat → List Nat → List String
  | 0, _ => []
  | n + 1, stream =>
    (read_unicode_string stream).1
      :: read_unicode_strings read_unicode_string n (read_unicode_string stream).2

/-- `Resource::interpret_as<std::vector<std::string> >` (lines 220-243). -/
def Resource.interpret_as_string_table (read_unicode_string : List Nat → String × List Nat)
    (fs : FileSystem) (r : Resource) : List String :=
  if r.type ≠ "RT_STRING" then []
  else
    match r._reach_data fs with
    | none => []
    | some stream => read_unicode_strings read_unicode_string 16 stream

/-- Modelled from the spec: `bitmap` is declared in `resources.h`. Its first 14 bytes are
the header that line 464 copies (two `uint8`, two `uint16` and two `uint32`, line 454):
the magic, the 32-bit size, two 16-bit reserved fields and the 32-bit offset to the
pixels; the raw bytes follow in a vector. -/
structure bitmap where
  Magic : List Nat
  Size : Nat
  Reserved1 : Nat
  Reserved2 : Nat
  OffsetToData : Nat
  data : List Nat
deriving DecidableEq

/-- `Resource::interpret_as<pbitmap>` (lines 247-274); `none` is the null pointer. The two
32-bit fields are reduced modulo `2 ^ 32`. -/
def Resource.interpret_as_bitmap (fs : FileSystem) (r : Resource) : Option bitmap :=
  if r.type ≠ "RT_BITMAP" then none
  else
    let header_size := 14
    let data := r.get_raw_data fs
    let Size := (data.length + header_size) % 2 ^ 32
    if data.length < 36 then none
    else
      let dib_header_size := le32_value data
      let colors_used := le32_value (data.drop 32)
      some { Magic := [66, 77]
             Size := Size
             Reserved1 := 0
             Reserved2 := 0
             OffsetToData := (header_size + dib_header_size + 4 * colors_used) % 2 ^ 32
             data := data }

/-- An open `FILE`: the bytes it reads, its position and its end-of-file indicator. Here the
bytes are those from the offset of the resource on, as `_reach_data` leaves the file. -/
structure FileStream where
  content : List Nat
  pos : Nat
  eof : Bool
deriving DecidableEq

/-- The call `fread(buf, 1, n, f)`: the bytes read and the file afterwards. A read that
delivers fewer than `n` bytes sets the end-of-file indicator. -/
def FileStream.fread (s : FileStream) (n : Nat) : List Nat × FileStream :=
  let bytes := sg.fread s.content s.pos n
  (bytes, { s with pos := s.pos + bytes.length, eof := s.eof || decide (bytes.length < n) })

/-- The call `fseek(f, k, SEEK_CUR)`: it moves the position and clears the end-of-file
indicator. -/
def FileStream.fseek_cur (s : FileStream) (k : Nat) : FileStream :=
  { s with pos := s.pos + k, eof := false }

/-- The 14 bytes of an icon entry as line 307 lays them over the zeroed structure: the
16-bit id on disk fills the low half of the 32-bit `Id`. -/
def parse_icon_entry (bs : List Nat) : group_icon_directory_entry :=
  { Width := bs.getD 0 0
    Height := bs.getD 1 0
    ColorCount := bs.getD 2 0
    Reserved := bs.getD 3 0
    Planes := le16_value (bs.drop 4)
    BitCount := le16_value (bs.drop 6)
    BytesInRes := le32_value (bs.drop 8)
    Id := le16_value (bs.drop 12) }

/-- Lines 316-323: the field-by-field reads of a cursor entry into the zeroed structure,
and the file afterwards. -/
def read_cursor_entry (s : FileStream) : group_icon_directory_entry × FileStream :=
  let width := s.fread 1
  let s1 := width.2.fseek_cur 1
  let height := s1.fread 1
  let s2 := height.2.fseek_cur 1
  let planes := s2.fread 2
  let bit_count := planes.2.fread 2
  let bytes_in_res := bit_count.2.fread 4
  let id := bytes_in_res.2.fread 2
  ({ Width := width.1.getD 0 0
     Height := height.1.getD 0 0
     ColorCount := 0
     Reserved := 0
     Planes := le16_value planes.1
     BitCount := le16_value bit_count.1
     BytesInRes := le32_value bytes_in_res.1
     Id := le16_value id.1 }, id.2)

/-- The loop of lines 297-332 with `n` entries left: the entries pushed, `none` when the
directory is reset. `ferror` is taken to be false: the file is read without I/O errors. -/
def read_group_entries (is_icon : Bool) :
    Nat → FileStream → Option (List group_icon_directory_entry)
  | 0, _ => some []
  | n + 1, s =>
    if is_icon then
      let r := s.fread 14
      if r.1.length ≠ 14 then none
      else (read_group_entries is_icon n r.2).map (fun es => parse_icon_entry r.1 :: es)
    else
      let r := read_cursor_entry s
      if r.2.eof then none
      else (read_group_entries is_icon n r.2).map (fun es => r.1 :: es)

/-- `Resource::interpret_as<pgroup_icon_directory>` (lines 278-339); `none` is the null
pointer. -/
def Resource.interpret_as_group_icon_directory (fs : FileSystem) (r : Resource) :
    Option group_icon_directory :=
  if r.type ≠ "RT_GROUP_ICON" ∧ r.type ≠ "RT_GROUP_CURSOR" then none
  else
    match r._reach_data fs with
    | none => none
    | some stream =>
      let header := FileStream.fread { content := stream, pos := 0, eof := false } 6
      if header.1.length ≠ 6 then none
      else
        match read_group_entries (r.type == "RT_GROUP_ICON") (le16_value (header.1.drop 4))
            header.2 with
        | none => none
        | some entries =>
          some { Reserved := le16_value header.1
                 Type_ := le16_value (header.1.drop 2)
                 Count := le16_value (header.1.drop 4)
                 Entries := entries }

/-- `Resource::interpret_as<std::vector<boost::uint8_t> >` (lines 343-346). -/
def Resource.interpret_as_bytes (fs : FileSystem) (r : Resource) : List Nat :=
  r.get_raw_data fs

/-! ## Extraction -/

/-- The surroundings of `PE::extract_resources` that are not in `resources.cpp`:

* `dir_ok` is the outcome of line 428: the destination folder exists or is created;
* `basename` is `bfs::basename`;
* `fopen_ok written name` tells whether `fopen(name, "wb+")` succeeds once `written` is
  on disk;
* `fwrite_count written name data` is the number of bytes that `fwrite` then writes. -/
structure ExtractEnv where
  dir_ok : Bool
  basename : String → String
  fopen_ok : List (String × List Nat) → String → Bool
  fwrite_count : List (String × List Nat) → String → List Nat → Nat

/-- The first 14 bytes of a `bitmap` in memory. -/
def bitmap.header_bytes (b : bitmap) : List Nat :=
  b.Magic ++ le32 b.Size ++ le16 b.Reserved1 ++ le16 b.Reserved2 ++ le32 b.OffsetToData

/-- Lines 438-483 of `extract_resources`: the file name and the bytes prepared for one
resource; `none` when the loop moves on at line 459 or 470. -/
def resource_output (fs : FileSystem) (base : String) (table : List Resource)
    (r : Resource) : Option (String × List Nat) :=
  if r.get_type = "RT_GROUP_ICON" ∨ r.get_type = "RT_GROUP_CURSOR" then
    some (base ++ "_" ++ toString r.get_id ++ "_" ++ r.get_type ++ ".ico",
      (reconstruct_icon fs (r.interpret_as_group_icon_directory fs) table).getD [])
  else if r.get_type = "RT_MANIFEST" then
    some (base ++ "_" ++ toString r.get_id ++ "_RT_MANIFEST.xml", r.get_raw_data fs)
  else if r.get_type = "RT_BITMAP" then
    match r.interpret_as_bitmap fs with
    | none => none
    | some bmp =>
      some (base ++ "_" ++ toString r.get_id ++ "_RT_BITMAP.bmp",
        memcpy (List.replicate 14 0) 0 bmp.header_bytes ++ bmp.data)
  else if r.get_type = "RT_ICON" ∨ r.get_type = "RT_CURSOR" then none
  else
    some (base ++ "_" ++ (if r.get_name ≠ "" then r.get_name else toString r.get_id)
        ++ "_" ++ r.get_type ++ ".raw",
      r.get_raw_data fs)

/-- The loop of lines 436-506 of `extract_resources` over the resources still to visit:
the returned boolean and the files written so far, in the order of the writes (a file
written twice appears twice; the later write replaces the earlier on disk). -/
def extract_loop (env : ExtractEnv) (fs : FileSystem) (base : String)
    (table : List Resource) :
    List Resource → List (String × List Nat) → Bool × List (String × List Nat)
  | [], written => (true, written)
  | r :: rest, written =>
    match resource_output fs base table r with
    | none => extract_loop env fs base table rest written
    | some (name, data) =>
      if data.length = 0 then extract_loop env fs base table rest written
      else if env.fopen_ok written name = false then (false, written)
      else if data.length ≠ env.fwrite_count written name data then
        (false, written ++ [(name, data.take (env.fwrite_count written name data))])
      else extract_loop env fs base table rest (written ++ [(name, data)])

/-- The function `PE::extract_resources` (lines 426-508) for a `PE` whose
`_resource_table` is `table`: the returned boolean and the files written. -/
def extract_resources (env : ExtractEnv) (fs : FileSystem) (pe : PE)
    (table : List Resource) : Bool × List (String × List Nat) :=
  if env.dir_ok = false then (false, [])
  else extract_loop env fs (env.basename pe.get_path) table table []

/-- The names of the files present in the destination folder after the writes. -/
def files_present (written : List (String × List Nat)) : List String :=
  (written.map Prod.fst).dedup

/-- The name and the bytes of the file that the loop writes for a resource, `none` when
it writes none: the resource is skipped or the bytes prepared for it are empty. -/
def eligible_output (fs : FileSystem) (base : String) (table : List Resource)
    (r : Resource) : Option (String × List Nat) :=
  match resource_output fs base table r with
  | none => none
  | some (name, data) => if data.length = 0 then none else some (name, data)

/-- Whether the type of a resource is `RT_ICON` or `RT_CURSOR`. -/
def is_icon_or_cursor (r : Resource) : Bool :=
  decide (r.get_type = "RT_ICON" ∨ r.get_type = "RT_CURSOR")

/-! ## The writes of the icon reconstruction -/

/-- The two `memcpy` of lines 401-408 for entry `i` on the buffer `res`: the position, the
length and the size of the buffer at the moment of each. -/
def reconstruct_icon_body_writes (i : Nat) (res : List Nat) : List (Nat × Nat × Nat) :=
  [(6 + i * 16, 12, res.length), (6 + (i + 1) * 16 - 4, 4, res.length)]

/-- The `memcpy` calls of the loop of `reconstruct_icon`, in order, with the buffer
evolving as in `reconstruct_icon_loop`. -/
def reconstruct_icon_loop_writes (fs : FileSystem) (d : group_icon_directory)
    (resources : List Resource) : Nat → Nat → List Nat → List (Nat × Nat × Nat)
  | 0, _, _ => []
  | n + 1, i, res =>
    match d.Entries[i]? with
    | none => []
    | some e =>
      match locate_icon resources e with
      | none => []
      | some icon =>
        reconstruct_icon_body_writes i res
          ++ reconstruct_icon_loop_writes fs d resources n (i + 1)
              (reconstruct_icon_body fs d i e icon res)

/-- All `memcpy` calls of `reconstruct_icon` into `res`: the header copy of line 379,
then those of the loop. Each is given as position, length and size of `res` then. -/
def reconstruct_icon_writes (fs : FileSystem) (d : group_icon_directory)
    (resources : List Resource) : List (Nat × Nat × Nat) :=
  (0, 6, 6 + d.Count * 16)
    :: reconstruct_icon_loop_writes fs d resources d.Count 0
        (memcpy (List.replicate (6 + d.Count * 16) 0) 0 d.header_bytes)

/-- A write lies within the buffer when it ends at or before its size. -/
def write_in_bounds (w : Nat × Nat × Nat) : Bool := decide (w.1 + w.2.1 ≤ w.2.2)

/-! ## Sample inputs for the views and the extraction -/

/-- Surroundings in which the destination folder is there and every write succeeds. -/
def sample_env : ExtractEnv :=
  { dir_ok := true
    basename := fun _ => "sample"
    fopen_ok := fun _ _ => true
    fwrite_count := fun _ _ data => data.length }

/-- Surroundings in which the destination folder can neither be found nor created. -/
def no_dir_env : ExtractEnv :=
  { dir_ok := false
    basename := fun _ => "sample"
    fopen_ok := fun _ _ => true
    fwrite_count := fun _ _ data => data.length }

/-- Modelled from the spec: `utils::read_unicode_string` is defined outside
`resources.cpp`. It reads a 16-bit length and that many UTF-16 code units. -/
def sample_read_unicode_string (stream : List Nat) : String × List Nat :=
  (String.mk (decode_units ((stream.drop 2).take (2 * le16_value stream))),
    stream.drop (2 + 2 * le16_value stream))

/-- The manifest with id 1 in English: the raw bytes 11, 12, 13, 14. -/
def manifest_en : Resource :=
  Resource.numbered "RT_MANIFEST" 1 "English - United States" 0 4 1 "sample.exe"

/-- The manifest with id 1 in French: the raw bytes 15, 16, 17, 18. -/
def manifest_fr : Resource :=
  Resource.numbered "RT_MANIFEST" 1 "French - France" 0 4 5 "sample.exe"

/-- A string table whose data is not mapped: its offset in the file is 0. -/
def string_unmapped : Resource := Resource.numbered "RT_STRING" 7 "en" 0 16 0 "a.exe"

/-- A string table at offset 1. -/
def string_mapped : Resource := Resource.numbered "RT_STRING" 7 "en" 0 15 1 "a.exe"

/-- An icon resource with id 1 and no raw byte. -/
def icon_empty : Resource := Resource.numbered "RT_ICON" 1 "en" 0 0 1 "a.exe"

/-- An icon directory whose `Count` is 3 although it lists two entries. -/
def icon_dir_count3 : group_icon_directory :=
  { Reserved := 0, Type_ := 1, Count := 3, Entries := [entry_a, entry_b] }

/-- A file that holds, from offset 1 on, a bitmap of 40 bytes: a header size of 40 at
bytes 0 to 3 and 2 colours at bytes 32 to 35. From offset 41 on it holds a cursor group:
the header (0, 2, 2) and two entries of 14 bytes. -/
def views_file : List Nat :=
  [0, 40, 0, 0, 0, 4, 0, 0, 0, 4, 0, 0, 0, 1, 0, 8, 0, 0, 0, 0, 0, 16, 0, 0, 0, 0, 0, 0, 0,
   0, 0, 0, 0, 2, 0, 0, 0, 0, 0, 0, 0,
   0, 0, 2, 0, 2, 0,
   32, 99, 32, 98, 1, 0, 2, 0, 52, 1, 0, 0, 1, 0,
   16, 97, 16, 96, 3, 0, 4, 0, 44, 0, 0, 0, 2, 0]

/-- A file system with `views_file` behind every path. -/
def views_fs : FileSystem := fun _ => some views_file

/-- The bitmap of `views_file`. -/
def bitmap_a : Resource := Resource.numbered "RT_BITMAP" 5 "en" 0 40 1 "a.exe"

/-- A bitmap resource cut to 35 bytes. -/
def bitmap_short : Resource := Resource.numbered "RT_BITMAP" 6 "en" 0 35 1 "a.exe"

/-- A bitmap resource of `2 ^ 32 - 1` bytes. -/
def bitmap_big : Resource := Resource.numbered "RT_BITMAP" 5 "en" 0 4294967295 1 "a.exe"

/-- The cursor group of `views_file`. -/
def cursor_group : Resource := Resource.numbered "RT_GROUP_CURSOR" 9 "en" 0 34 41 "a.exe"

/-- The cursor entry that 14 bytes on disk stand for: the width at byte 0, the height at
byte 2, the planes at bytes 4 and 5, the bit count at bytes 6 and 7, the bytes in
resource at bytes 8 to 11 and the id at bytes 12 and 13; colour count and reserved are
zero. -/
def cursor_entry_at (bs : List Nat) : group_icon_directory_entry :=
  { Width := bs.getD 0 0
    Height := bs.getD 2 0
    ColorCount := 0
    Reserved := 0
    Planes := le16_value (bs.drop 4)
    BitCount := le16_value (bs.drop 6)
    BytesInRes := le32_value (bs.drop 8)
    Id := le16_value (bs.drop 12) }

/-- The cursor entries that `n` records of 14 bytes stand for. -/
def cursor_entries_at (bs : List Nat) : Nat → List group_icon_directory_entry
  | 0 => []
  | n + 1 => cursor_entry_at bs :: cursor_entries_at (bs.drop 14) n

/-- The data-offset field of record `i` of an icon file: the little-endian 32-bit value
of the four bytes at `6 + 16 * i + 12`. -/
def offset_field (out : List Nat) (i : Nat) : Nat :=
  le32_value ((out.drop (6 + 16 * i + 12)).take 4)

/-- An icon directory whose `Count` is 1 although it lists two entries. -/
def icon_dir_count1 : group_icon_directory :=
  { Reserved := 0, Type_ := 1, Count := 1, Entries := [entry_a, entry_b] }

/-- A second icon resource with id 1, with the raw bytes 20, 21, 22. -/
def icon_a_later : Resource := Resource.numbered "RT_ICON" 1 "fr" 0 3 10 "a.exe"

/-- A second cursor resource with id 2, with the six raw bytes 20 to 25. -/
def cursor_b_later : Resource := Resource.numbered "RT_CURSOR" 2 "fr" 0 6 10 "a.exe"

/-- A cursor directory with the single entry `entry_b`. -/
def cursor_dir_b : group_icon_directory :=
  { Reserved := 0, Type_ := 2, Count := 1, Entries := [entry_b] }

/-- The name reader never reports success with an empty string: a named entry that is
pushed at line 74 then has a name that is not empty. -/
def reader_rejects_empty (pe : PE) : Prop :=
  ∀ (pos offset : Nat) (s : String) (p : Nat),
    pe.read_string_at_offset pos offset = (true, s, p) → s ≠ ""

/-- A reader like `read_unicode_string_at` that also fails when the string it reads is
empty. -/
def read_nonempty_string_at (content : List Nat) (pos offset : Nat) : Bool × String × Nat :=
  if (read_unicode_string_at content pos offset).2.1 = "" then (false, "", pos)
  else read_unicode_string_at content pos offset

/-- The `PE` of `sample_pe` with the reader `read_nonempty_string_at`. -/
def strict_pe (content : List Nat) : PE :=
  { sample_pe content with read_string_at_offset := read_nonempty_string_at content }

/-! ## Theorems -/

theorem le16_length (v : Nat) : (le16 v).length = 2 := rfl

theorem le32_length (v : Nat) : (le32 v).length = 4 := rfl

theorem bytes12_length (e : group_icon_directory_entry) : e.bytes12.length = 12 := rfl

theorem header_bytes_length (d : group_icon_directory) : d.header_bytes.length = 6 := rfl

/-- A `memcpy` that exactly covers the middle part of a buffer replaces that part. -/
theorem memcpy_middle (A M B src : List Nat) (pos : Nat) (hpos : A.length = pos)
    (hlen : M.length = src.length) : memcpy (A ++ M ++ B) pos src = A ++ src ++ B := by
  subst hpos
  unfold memcpy
  have h1 : (A ++ M ++ B).take A.length = A := by
    rw [List.append_assoc, List.take_left]
  have h2 : (A ++ M ++ B).drop (A.length + src.length) = B := by
    rw [← hlen, ← List.length_append, List.drop_left]
  have h3 : src.take ((A ++ M ++ B).length - A.length) = src := by
    apply List.take_of_length_le
    simp only [List.length_append]
    omega
  rw [h1, h2, h3]

theorem icon_payloads_length (pay : group_icon_directory_entry → List Nat)
    (es : List group_icon_directory_entry) :
    (icon_payloads pay es).length = payload_total pay es := by
  induction es with
  | nil => rfl
  | cons e es ih => simp [icon_payloads, payload_total, ih]

theorem icon_records_length (base : Nat) (pay : group_icon_directory_entry → List Nat)
    (es : List group_icon_directory_entry) (p : Nat) :
    (icon_records base pay es p).length = 16 * es.length := by
  induction es generalizing p with
  | nil => rfl
  | cons e es ih =>
    simp only [icon_records, List.length_append, bytes12_length, le32_length, ih,
      List.length_cons]
    omega

/-- One iteration of the loop on a buffer made of the part already written `A`, the
records still blank and the payloads `P` appended so far. -/
theorem reconstruct_icon_body_layout (fs : FileSystem) (d : group_icon_directory)
    (resources : List Resource) (i n : Nat) (e : group_icon_directory_entry)
    (icon : Resource) (pay : List Nat) (A P : List Nat) (hA : A.length = 6 + i * 16)
    (hicon : locate_icon resources e = some icon)
    (hpay : entry_payload fs d resources e = some pay) :
    reconstruct_icon_body fs d i e icon (A ++ List.replicate (16 * (n + 1)) 0 ++ P)
      = (A ++ e.bytes12 ++ le32 ((6 + 16 * (i + n + 1) + P.length) % 2 ^ 32))
          ++ List.replicate (16 * n) 0 ++ (P ++ pay) := by
  have hsplit : List.replicate (16 * (n + 1)) 0
      = List.replicate 12 0 ++ (List.replicate 4 0 ++ List.replicate (16 * n) 0) := by
    rw [← List.replicate_add, ← List.replicate_add]
    congr 1
    omega
  have h1 : memcpy (A ++ List.replicate (16 * (n + 1)) 0 ++ P) (6 + i * 16) e.bytes12
      = A ++ e.bytes12 ++ (List.replicate 4 0 ++ List.replicate (16 * n) 0 ++ P) := by
    have := memcpy_middle A (List.replicate 12 0)
      (List.replicate 4 0 ++ List.replicate (16 * n) 0 ++ P) e.bytes12 (6 + i * 16) hA
      (by simp [bytes12_length])
    rw [← this, hsplit]
    simp only [List.append_assoc]
  have hlen1 : (A ++ e.bytes12 ++ (List.replicate 4 0 ++ List.replicate (16 * n) 0 ++ P)).length
      = 6 + 16 * (i + n + 1) + P.length := by
    simp only [List.length_append, bytes12_length, List.length_replicate, hA]
    omega
  have h2 : ∀ src : List Nat, src.length = 4 →
      memcpy (A ++ e.bytes12 ++ (List.replicate 4 0 ++ List.replicate (16 * n) 0 ++ P))
        (6 + (i + 1) * 16 - 4) src
      = A ++ e.bytes12 ++ src ++ (List.replicate (16 * n) 0 ++ P) := by
    intro src hsrc
    have := memcpy_middle (A ++ e.bytes12) (List.replicate 4 0)
      (List.replicate (16 * n) 0 ++ P) src (6 + (i + 1) * 16 - 4)
      (by simp only [List.length_append, bytes12_length, hA]; omega)
      (by simp [hsrc])
    rw [← this]
    simp only [List.append_assoc]
  unfold entry_payload at hpay
  rw [hicon] at hpay
  unfold reconstruct_icon_body
  simp only [h1, hlen1, h2 _ (le32_length _)]
  by_cases hT : d.Type_ = 1
  · simp only [hT, if_true, Option.some.injEq] at hpay ⊢
    subst hpay
    simp only [List.append_assoc]
  · by_cases h4 : (icon.get_raw_data fs).length > 4
    · simp only [hT, h4, if_true, if_false, Option.some.injEq] at hpay ⊢
      subst hpay
      simp only [List.append_assoc]
    · simp [hT, h4] at hpay

/-- The loop, started on a buffer whose records from `i` on are blank, fills the records
of the next `n` entries and appends their payloads, provided each of them has one. -/
theorem reconstruct_icon_loop_layout (fs : FileSystem) (d : group_icon_directory)
    (resources : List Resource) (pay : group_icon_directory_entry → List Nat) :
    ∀ (n i : Nat) (A P : List Nat), A.length = 6 + i * 16 →
      (∀ k, k < n → ∃ e, d.Entries[i + k]? = some e
        ∧ entry_payload fs d resources e = some (pay e)) →
      reconstruct_icon_loop fs d resources n i (A ++ List.replicate (16 * n) 0 ++ P)
        = some (A ++ icon_records (6 + 16 * (i + n)) pay ((d.Entries.drop i).take n) P.length
            ++ P ++ icon_payloads pay ((d.Entries.drop i).take n)) := by
  intro n
  induction n with
  | zero =>
    intro i A P _ _
    simp [reconstruct_icon_loop, icon_records, icon_payloads]
  | succ n ih =>
    intro i A P hA h
    obtain ⟨e, he, hpay⟩ := h 0 (Nat.succ_pos n)
    rw [Nat.add_zero] at he
    have hicon : ∃ icon, locate_icon resources e = some icon := by
      unfold entry_payload at hpay
      cases hloc : locate_icon resources e with
      | none => rw [hloc] at hpay; cases hpay
      | some icon => exact ⟨icon, rfl⟩
    obtain ⟨icon, hicon⟩ := hicon
    have hlt : i < d.Entries.length := by
      rcases List.getElem?_eq_some.mp he with ⟨hlt, _⟩
      exact hlt
    have hget : d.Entries[i] = e := by
      rcases List.getElem?_eq_some.mp he with ⟨_, hget⟩
      exact hget
    have hdrop : (d.Entries.drop i).take (n + 1) = e :: (d.Entries.drop (i + 1)).take n := by
      rw [List.drop_eq_getElem_cons hlt, hget, List.take_succ_cons]
    have hrest : ∀ k, k < n → ∃ e2, d.Entries[i + 1 + k]? = some e2
        ∧ entry_payload fs d resources e2 = some (pay e2) := by
      intro k hk
      obtain ⟨e2, he2, hp2⟩ := h (k + 1) (Nat.succ_lt_succ hk)
      refine ⟨e2, ?_, hp2⟩
      rw [← he2]
      congr 1
      omega
    have hA2 : (A ++ e.bytes12 ++ le32 ((6 + 16 * (i + n + 1) + P.length) % 2 ^ 32)).length
        = 6 + (i + 1) * 16 := by
      simp only [List.length_append, bytes12_length, le32_length, hA]
      omega
    rw [reconstruct_icon_loop]
    simp only [he, hicon]
    rw [reconstruct_icon_body_layout fs d resources i n e icon (pay e) A P hA hicon hpay,
      ih (i + 1) _ (P ++ pay e) hA2 hrest, hdrop]
    have hbase : 6 + 16 * (i + 1 + n) = 6 + 16 * (i + (n + 1)) := by omega
    have hbase2 : 6 + 16 * (i + n + 1) = 6 + 16 * (i + (n + 1)) := by omega
    simp only [icon_records, icon_payloads, List.length_append, List.append_assoc, hbase,
      hbase2]

/-- The buffer on which the loop of `reconstruct_icon` starts: the header of the
directory followed by blank records. -/
theorem memcpy_header (d : group_icon_directory) :
    memcpy (List.replicate (6 + d.Count * 16) 0) 0 d.header_bytes
      = d.header_bytes ++ List.replicate (16 * d.Count) 0 ++ [] := by
  have hsplit : List.replicate (6 + d.Count * 16) 0
      = [] ++ List.replicate 6 0 ++ List.replicate (16 * d.Count) 0 := by
    rw [List.nil_append, ← List.replicate_add]
    congr 1
    omega
  rw [hsplit, memcpy_middle [] (List.replicate 6 0) _ d.header_bytes 0 rfl
    (by simp [header_bytes_length])]
  simp

/-- Layout of the result: when the first `Count` entries of the directory exist and each
has a payload, `reconstruct_icon` returns the header, the records and the payloads. -/
theorem reconstruct_icon_layout (fs : FileSystem) (d : group_icon_directory)
    (resources : List Resource) (pay : group_icon_directory_entry → List Nat)
    (h : ∀ k, k < d.Count → ∃ e, d.Entries[k]? = some e
      ∧ entry_payload fs d resources e = some (pay e)) :
    reconstruct_icon fs (some d) resources
      = some (d.header_bytes ++ icon_records (6 + 16 * d.Count) pay (d.Entries.take d.Count) 0
          ++ icon_payloads pay (d.Entries.take d.Count)) := by
  unfold reconstruct_icon
  simp only []
  rw [memcpy_header,
    reconstruct_icon_loop_layout fs d resources pay d.Count 0 d.header_bytes []
      (by simp [header_bytes_length])
      (by intro k hk; simpa using h k hk)]
  simp

/-- The record of entry `i` inside the records of a list of entries. -/
theorem icon_records_record (base : Nat) (pay : group_icon_directory_entry → List Nat) :
    ∀ (es : List group_icon_directory_entry) (p i : Nat) (e : group_icon_directory_entry),
      es[i]? = some e →
      ((icon_records base pay es p).drop (16 * i)).take 16
        = e.bytes12 ++ le32 ((base + (p + payload_total pay (es.take i))) % 2 ^ 32) := by
  intro es
  induction es with
  | nil => intro p i e h; simp at h
  | cons e0 es ih =>
    intro p i e h
    cases i with
    | zero =>
      simp only [List.getElem?_cons_zero, Option.some.injEq] at h
      subst h
      simp only [icon_records, Nat.mul_zero, List.drop_zero, List.take_zero, payload_total,
        Nat.add_zero]
      exact List.take_left' (by simp [bytes12_length, le32_length])
    | succ i =>
      simp only [List.getElem?_cons_succ] at h
      have hlen : (e0.bytes12 ++ le32 ((base + p) % 2 ^ 32)).length = 16 := by
        simp [bytes12_length, le32_length]
      have hdrop : (icon_records base pay (e0 :: es) p).drop (16 * (i + 1))
          = (icon_records base pay es (p + (pay e0).length)).drop (16 * i) := by
        have h16 : 16 * (i + 1) = (e0.bytes12 ++ le32 ((base + p) % 2 ^ 32)).length + 16 * i := by
          rw [hlen]; omega
        rw [icon_records, h16, List.drop_append]
      rw [hdrop, ih (p + (pay e0).length) i e h]
      simp only [List.take_succ_cons, payload_total, Nat.add_assoc]

/-- The payload of entry `i` inside the payloads of a list of entries. -/
theorem icon_payloads_payload (pay : group_icon_directory_entry → List Nat) :
    ∀ (es : List group_icon_directory_entry) (i : Nat) (e : group_icon_directory_entry),
      es[i]? = some e →
      ((icon_payloads pay es).drop (payload_total pay (es.take i))).take (pay e).length
        = pay e := by
  intro es
  induction es with
  | nil => intro i e h; simp at h
  | cons e0 es ih =>
    intro i e h
    cases i with
    | zero =>
      simp only [List.getElem?_cons_zero, Option.some.injEq] at h
      subst h
      simp only [icon_payloads, List.take_zero, payload_total, List.drop_zero]
      exact List.take_left _ _
    | succ i =>
      simp only [List.getElem?_cons_succ] at h
      simp only [icon_payloads, List.take_succ_cons, payload_total]
      rw [List.drop_append, ih i e h]

theorem payload_total_eq_sum (pay : group_icon_directory_entry → List Nat)
    (es : List group_icon_directory_entry) :
    payload_total pay es = (es.map (fun e => (pay e).length)).sum := by
  induction es with
  | nil => rfl
  | cons e es ih => simp [payload_total, ih]

/-- The four bytes written for an offset below `2 ^ 32` read back as that offset. -/
theorem le32_value_le32 (v : Nat) (h : v < 2 ^ 32) : le32_value (le32 v) = v := by
  simp only [le32_value, le32, List.getD_cons_zero, List.getD_cons_succ]
  omega

/-- A located resource has the id of the entry. -/
theorem locate_icon_id (resources : List Resource) (e : group_icon_directory_entry)
    (icon : Resource) (h : locate_icon resources e = some icon) : icon.get_id = e.Id := by
  have := List.find?_some h
  simpa using this

/-- A located resource belongs to the table. -/
theorem locate_icon_mem (resources : List Resource) (e : group_icon_directory_entry)
    (icon : Resource) (h : locate_icon resources e = some icon) : icon ∈ resources :=
  List.mem_of_find?_eq_some h

/-- A resource is located for an entry exactly when some resource has its id. -/
theorem locate_icon_isSome (resources : List Resource) (e : group_icon_directory_entry) :
    (∃ icon, locate_icon resources e = some icon) ↔ ∃ r ∈ resources, r.get_id = e.Id := by
  constructor
  · rintro ⟨icon, h⟩
    exact ⟨icon, locate_icon_mem resources e icon h, locate_icon_id resources e icon h⟩
  · rintro ⟨r, hr, hid⟩
    cases hloc : locate_icon resources e with
    | some icon => exact ⟨icon, rfl⟩
    | none =>
      have := List.find?_eq_none.mp hloc r hr
      simp [hid] at this

/-- In an icon directory the payload of an entry with a located resource is the raw data
of that resource. -/
theorem entry_payload_icon (fs : FileSystem) (d : group_icon_directory)
    (resources : List Resource) (e : group_icon_directory_entry) (hT : d.Type_ = 1)
    (h : ∃ r ∈ resources, r.get_id = e.Id) :
    entry_payload fs d resources e = some (matched_raw fs resources e) := by
  obtain ⟨icon, hicon⟩ := (locate_icon_isSome resources e).mpr h
  simp [entry_payload, matched_raw, hicon, hT]

/-- Positions inside the result: when `Count` is the number of entries and every entry
has a payload, the result has the header in front, the record of entry `i` at
`6 + 16 * i` holding the offset of its payload modulo `2 ^ 32`, and the payload of entry
`i` after the payloads of the entries before it. -/
theorem reconstruct_icon_positions (fs : FileSystem) (d : group_icon_directory)
    (resources : List Resource) (pay : group_icon_directory_entry → List Nat)
    (hC : d.Count = d.Entries.length)
    (h : ∀ e ∈ d.Entries, entry_payload fs d resources e = some (pay e)) :
    ∃ out, reconstruct_icon fs (some d) resources = some out
      ∧ out.length = 6 + 16 * d.Count + payload_total pay d.Entries
      ∧ out.take 6 = d.header_bytes
      ∧ ∀ i e, d.Entries[i]? = some e →
          (out.drop (6 + 16 * i)).take 16
            = e.bytes12
              ++ le32 ((6 + 16 * d.Count + payload_total pay (d.Entries.take i)) % 2 ^ 32)
          ∧ (out.drop (6 + 16 * d.Count + payload_total pay (d.Entries.take i))).take
              (pay e).length = pay e := by
  have hk : ∀ k, k < d.Count → ∃ e, d.Entries[k]? = some e
      ∧ entry_payload fs d resources e = some (pay e) := by
    intro k hk
    rw [hC] at hk
    exact ⟨d.Entries[k], List.getElem?_eq_getElem hk, h _ (List.getElem_mem hk)⟩
  have htake : d.Entries.take d.Count = d.Entries := by
    rw [hC]; exact List.take_length _
  refine ⟨_, reconstruct_icon_layout fs d resources pay hk, ?_, ?_, ?_⟩
  · simp only [List.length_append, header_bytes_length, icon_records_length,
      icon_payloads_length, htake]
    rw [hC]
  · rw [List.append_assoc]
    exact List.take_left' (header_bytes_length d)
  · intro i e he
    rw [htake]
    have hi : i < d.Entries.length := (List.getElem?_eq_some.mp he).1
    constructor
    · have h1 : (d.header_bytes ++ icon_records (6 + 16 * d.Count) pay d.Entries 0
          ++ icon_payloads pay d.Entries).drop (6 + 16 * i)
          = (icon_records (6 + 16 * d.Count) pay d.Entries 0).drop (16 * i)
            ++ icon_payloads pay d.Entries := by
        rw [List.append_assoc]
        have : 6 + 16 * i = d.header_bytes.length + 16 * i := by rw [header_bytes_length]
        rw [this, List.drop_append]
        apply List.drop_append_of_le_length
        rw [icon_records_length]
        omega
      rw [h1, List.take_append_of_le_length, icon_records_record _ _ _ _ _ _ he, Nat.zero_add]
      rw [List.length_drop, icon_records_length]
      omega
    · have h2 : (d.header_bytes ++ icon_records (6 + 16 * d.Count) pay d.Entries 0
          ++ icon_payloads pay d.Entries).drop
            (6 + 16 * d.Count + payload_total pay (d.Entries.take i))
          = (icon_payloads pay d.Entries).drop (payload_total pay (d.Entries.take i)) := by
        have : 6 + 16 * d.Count + payload_total pay (d.Entries.take i)
            = (d.header_bytes ++ icon_records (6 + 16 * d.Count) pay d.Entries 0).length
              + payload_total pay (d.Entries.take i) := by
          rw [List.length_append, header_bytes_length, icon_records_length, hC]
        rw [this, List.drop_append]
      rw [h2, icon_payloads_payload pay _ _ _ he]

/-- C1: for an icon directory (`Type = 1`) whose `Count` is its number of entries, and a
resource table holding for each entry a resource with the id of the entry,
`reconstruct_icon` returns a buffer of length `6 + 16 * Count` plus the sum over the
entries of the length of the raw data of the resource located for the entry. -/
theorem reconstruct_icon_length (fs : FileSystem) (d : group_icon_directory)
    (resources : List Resource) (hT : d.Type_ = 1) (hC : d.Count = d.Entries.length)
    (hM : ∀ e ∈ d.Entries, ∃ r ∈ resources, r.get_id = e.Id) :
    ∃ buf, reconstruct_icon fs (some d) resources = some buf
      ∧ buf.length = 6 + 16 * d.Count
          + (d.Entries.map (fun e => (matched_raw fs resources e).length)).sum := by
  obtain ⟨out, hout, hlen, _⟩ := reconstruct_icon_positions fs d resources
    (matched_raw fs resources) hC
    (fun e he => entry_payload_icon fs d resources e hT (hM e he))
  exact ⟨out, hout, by rw [hlen, payload_total_eq_sum]⟩

/-- C2 (amended): for an icon directory (`Type = 1`) whose `Count` is its number of
entries and whose entries all have a resource with their id in the table, the result of
`reconstruct_icon` begins with the six header bytes of the directory; the 16 bytes at
`6 + 16 * i` are the first twelve bytes of entry `i` followed by the little-endian 32-bit
value of `o % 2 ^ 32`, where `o` is `6 + 16 * Count` plus the lengths of the raw data
located for the entries before `i`; and the bytes of the result from `o` to `o + len`
are the raw data (of length `len`) of the resource located for entry `i`. -/
theorem reconstruct_icon_records (fs : FileSystem) (d : group_icon_directory)
    (resources : List Resource) (hT : d.Type_ = 1) (hC : d.Count = d.Entries.length)
    (hM : ∀ e ∈ d.Entries, ∃ r ∈ resources, r.get_id = e.Id) :
    ∃ out, reconstruct_icon fs (some d) resources = some out
      ∧ out.take 6 = d.header_bytes
      ∧ ∀ i e, d.Entries[i]? = some e →
          ∃ o, o = 6 + 16 * d.Count
                + ((d.Entries.take i).map (fun x => (matched_raw fs resources x).length)).sum
            ∧ (out.drop (6 + 16 * i)).take 16 = e.bytes12 ++ le32 (o % 2 ^ 32)
            ∧ (out.drop o).take (matched_raw fs resources e).length
                = matched_raw fs resources e := by
  obtain ⟨out, hout, _, hhdr, hrec⟩ := reconstruct_icon_positions fs d resources
    (matched_raw fs resources) hC
    (fun e he => entry_payload_icon fs d resources e hT (hM e he))
  refine ⟨out, hout, hhdr, ?_⟩
  intro i e he
  refine ⟨_, rfl, ?_⟩
  rw [← payload_total_eq_sum]
  exact hrec i e he

/-- Witness of C1 on the icon directory `icon_dir_ab`. -/
theorem reconstruct_icon_length_witness :
    icon_dir_ab.Type_ = 1 ∧ icon_dir_ab.Count = icon_dir_ab.Entries.length
      ∧ (∀ e ∈ icon_dir_ab.Entries, ∃ r ∈ [icon_a, icon_b], r.get_id = e.Id)
      ∧ ∃ buf, reconstruct_icon sample_fs (some icon_dir_ab) [icon_a, icon_b] = some buf
          ∧ buf.length = 6 + 16 * icon_dir_ab.Count
            + (icon_dir_ab.Entries.map
                (fun e => (matched_raw sample_fs [icon_a, icon_b] e).length)).sum :=
  ⟨by decide, by decide, by decide,
    reconstruct_icon_length sample_fs icon_dir_ab [icon_a, icon_b] (by decide) (by decide)
      (by decide)⟩

/-- Witness of the amended C2 on the icon directory `icon_dir_ab`. -/
theorem reconstruct_icon_records_witness :
    icon_dir_ab.Type_ = 1 ∧ icon_dir_ab.Count = icon_dir_ab.Entries.length
      ∧ (∀ e ∈ icon_dir_ab.Entries, ∃ r ∈ [icon_a, icon_b], r.get_id = e.Id)
      ∧ ∃ out, reconstruct_icon sample_fs (some icon_dir_ab) [icon_a, icon_b] = some out
          ∧ out.take 6 = icon_dir_ab.header_bytes
          ∧ ∀ i e, icon_dir_ab.Entries[i]? = some e →
              ∃ o, o = 6 + 16 * icon_dir_ab.Count
                    + ((icon_dir_ab.Entries.take i).map
                        (fun x => (matched_raw sample_fs [icon_a, icon_b] x).length)).sum
                ∧ (out.drop (6 + 16 * i)).take 16 = e.bytes12 ++ le32 (o % 2 ^ 32)
                ∧ (out.drop o).take (matched_raw sample_fs [icon_a, icon_b] e).length
                    = matched_raw sample_fs [icon_a, icon_b] e :=
  ⟨by decide, by decide, by decide,
    reconstruct_icon_records sample_fs icon_dir_ab [icon_a, icon_b] (by decide) (by decide)
      (by decide)⟩

/-- The loop returns the empty buffer as soon as one of the entries it reaches has no
resource located for it. -/
theorem reconstruct_icon_loop_missing (fs : FileSystem) (d : group_icon_directory)
    (resources : List Resource) (e : group_icon_directory_entry)
    (hno : locate_icon resources e = none) :
    ∀ (n i k : Nat) (res : List Nat), k < n → d.Entries[i + k]? = some e →
      reconstruct_icon_loop fs d resources n i res = some [] := by
  intro n
  induction n with
  | zero => intro i k res hk; omega
  | succ n ih =>
    intro i k res hk he
    cases k with
    | zero =>
      rw [Nat.add_zero] at he
      rw [reconstruct_icon_loop]
      simp only [he, hno]
    | succ k =>
      have hlt : i < d.Entries.length := by
        have := (List.getElem?_eq_some.mp he).1
        omega
      rw [reconstruct_icon_loop]
      simp only [List.getElem?_eq_getElem hlt]
      cases hloc : locate_icon resources d.Entries[i] with
      | none => rfl
      | some icon =>
        simp only []
        apply ih (i + 1) k _ (by omega)
        rw [← he]
        congr 1
        omega

/-- C3 (amended): if one of the first `Count` entries of the directory has an id that no
resource of the table has, `reconstruct_icon` returns the empty buffer. -/
theorem reconstruct_icon_missing (fs : FileSystem) (d : group_icon_directory)
    (resources : List Resource) (j : Nat) (e : group_icon_directory_entry)
    (hj : j < d.Count) (he : d.Entries[j]? = some e)
    (hno : ∀ r ∈ resources, r.get_id ≠ e.Id) :
    reconstruct_icon fs (some d) resources = some [] := by
  have hloc : locate_icon resources e = none := by
    cases h : locate_icon resources e with
    | none => rfl
    | some icon =>
      exact absurd (locate_icon_id resources e icon h)
        (hno icon (locate_icon_mem resources e icon h))
  unfold reconstruct_icon
  exact reconstruct_icon_loop_missing fs d resources e hloc d.Count 0 j _ hj
    (by rw [Nat.zero_add]; exact he)

/-- Witness of the amended C3: the second entry of `icon_dir_ab` has no resource in a
table holding `icon_a` only. -/
theorem reconstruct_icon_missing_witness :
    1 < icon_dir_ab.Count ∧ icon_dir_ab.Entries[1]? = some entry_b
      ∧ (∀ r ∈ [icon_a], r.get_id ≠ entry_b.Id)
      ∧ reconstruct_icon sample_fs (some icon_dir_ab) [icon_a] = some [] :=
  ⟨by decide, by decide, by decide,
    reconstruct_icon_missing sample_fs icon_dir_ab [icon_a] 1 entry_b (by decide) (by decide)
      (by decide)⟩

/-- C3 as stated fails: the directory `icon_dir_count0` lists an entry whose id no
resource of the empty table has, and `reconstruct_icon` returns its six header bytes. -/
theorem reconstruct_icon_missing_counterexample :
    (∃ e ∈ icon_dir_count0.Entries, ∀ r ∈ ([] : List Resource), r.get_id ≠ e.Id)
      ∧ reconstruct_icon sample_fs (some icon_dir_count0) [] = some [0, 0, 1, 0, 0, 0]
      ∧ reconstruct_icon sample_fs (some icon_dir_count0) [] ≠ some [] := by
  decide

/-- C4: `reconstruct_icon` selects a resource by its id alone. With a manifest and an
icon that both have id 1, the manifest comes first in the table, is located for the
entry, and its raw bytes 19, 20, 21, 22 are appended. -/
theorem reconstruct_icon_selects_manifest :
    locate_icon [manifest_a, icon_a] entry_a = some manifest_a
      ∧ manifest_a.get_type = "RT_MANIFEST"
      ∧ manifest_a.get_raw_data sample_fs = [19, 20, 21, 22]
      ∧ reconstruct_icon sample_fs (some icon_dir_a) [manifest_a, icon_a]
          = some ([0, 0, 1, 0, 1, 0] ++ entry_a.bytes12 ++ le32 22 ++ [19, 20, 21, 22]) := by
  decide

/-- C5: in the cursor directory `cursor_dir_ab` the resource located for the first entry
has three raw bytes, yet `reconstruct_icon` does not return the empty buffer: the loop
goes on after line 417 and the result is the payload of the second entry. -/
theorem reconstruct_icon_invalid_cursor_continues :
    cursor_dir_ab.Type_ ≠ 1
      ∧ locate_icon [cursor_a, cursor_b] entry_a = some cursor_a
      ∧ (cursor_a.get_raw_data sample_fs).length = 3
      ∧ reconstruct_icon sample_fs (some cursor_dir_ab) [cursor_a, cursor_b]
          = some [18, 19, 20, 21] := by
  decide

/-- In a directory that is not an icon directory the payload of an entry whose located
resource has more than four raw bytes is the raw data without its first four bytes. -/
theorem entry_payload_cursor (fs : FileSystem) (d : group_icon_directory)
    (resources : List Resource) (e : group_icon_directory_entry) (hT : d.Type_ ≠ 1)
    (h : ∃ r ∈ resources, r.get_id = e.Id)
    (h4 : 4 < (matched_raw fs resources e).length) :
    entry_payload fs d resources e = some ((matched_raw fs resources e).drop 4) := by
  obtain ⟨icon, hicon⟩ := (locate_icon_isSome resources e).mpr h
  simp only [matched_raw, hicon] at h4
  simp [entry_payload, matched_raw, hicon, hT, h4]

/-- C6 (amended): for a cursor directory (`Type` other than 1) whose `Count` is its
number of entries, whose entries all have a resource with their id in the table, and
whose located resources each have more than four raw bytes, `reconstruct_icon` succeeds,
the payload of each entry is the raw data of its resource without the first four bytes,
and the length of the result is `6 + 16 * Count` plus the sum of the `len - 4`. -/
theorem reconstruct_icon_cursor (fs : FileSystem) (d : group_icon_directory)
    (resources : List Resource) (hT : d.Type_ ≠ 1) (hC : d.Count = d.Entries.length)
    (hM : ∀ e ∈ d.Entries, (∃ r ∈ resources, r.get_id = e.Id)
      ∧ 4 < (matched_raw fs resources e).length) :
    ∃ out, reconstruct_icon fs (some d) resources = some out
      ∧ out.length = 6 + 16 * d.Count
          + (d.Entries.map (fun e => (matched_raw fs resources e).length - 4)).sum
      ∧ ∀ i e, d.Entries[i]? = some e →
          ∃ o, o = 6 + 16 * d.Count
                + ((d.Entries.take i).map
                    (fun x => (matched_raw fs resources x).length - 4)).sum
            ∧ (out.drop o).take ((matched_raw fs resources e).length - 4)
                = (matched_raw fs resources e).drop 4 := by
  obtain ⟨out, hout, hlen, _, hrec⟩ := reconstruct_icon_positions fs d resources
    (fun e => (matched_raw fs resources e).drop 4) hC
    (fun e he => entry_payload_cursor fs d resources e hT (hM e he).1 (hM e he).2)
  refine ⟨out, hout, ?_, ?_⟩
  · rw [hlen, payload_total_eq_sum]
    simp only [List.length_drop]
  · intro i e he
    refine ⟨_, rfl, ?_⟩
    have := (hrec i e he).2
    rw [payload_total_eq_sum] at this
    simpa only [List.length_drop] using this

/-- Witness of the amended C6 on the cursor directory `cursor_dir_bd`. -/
theorem reconstruct_icon_cursor_witness :
    cursor_dir_bd.Type_ ≠ 1 ∧ cursor_dir_bd.Count = cursor_dir_bd.Entries.length
      ∧ (∀ e ∈ cursor_dir_bd.Entries, (∃ r ∈ [cursor_b, cursor_d], r.get_id = e.Id)
          ∧ 4 < (matched_raw sample_fs [cursor_b, cursor_d] e).length)
      ∧ ∃ out, reconstruct_icon sample_fs (some cursor_dir_bd) [cursor_b, cursor_d] = some out
          ∧ out.length = 6 + 16 * cursor_dir_bd.Count
              + (cursor_dir_bd.Entries.map
                  (fun e => (matched_raw sample_fs [cursor_b, cursor_d] e).length - 4)).sum
          ∧ ∀ i e, cursor_dir_bd.Entries[i]? = some e →
              ∃ o, o = 6 + 16 * cursor_dir_bd.Count
                    + ((cursor_dir_bd.Entries.take i).map
                        (fun x => (matched_raw sample_fs [cursor_b, cursor_d] x).length - 4)).sum
                ∧ (out.drop o).take ((matched_raw sample_fs [cursor_b, cursor_d] e).length - 4)
                    = (matched_raw sample_fs [cursor_b, cursor_d] e).drop 4 :=
  ⟨by decide, by decide, by decide,
    reconstruct_icon_cursor sample_fs cursor_dir_bd [cursor_b, cursor_d] (by decide)
      (by decide) (by decide)⟩

/-- C6 as stated fails twice. A cursor whose resource has exactly four raw bytes is
rejected: the result is empty instead of 22 bytes long. A directory whose `Count` is 0
although it lists an entry yields its six header bytes, not `6 + 16 * 0 + (8 - 4)`. -/
theorem reconstruct_icon_cursor_counterexample :
    (cursor_dir_c.Type_ ≠ 1
      ∧ (∀ e ∈ cursor_dir_c.Entries, (∃ r ∈ [cursor_c], r.get_id = e.Id)
          ∧ 4 ≤ (matched_raw sample_fs [cursor_c] e).length)
      ∧ reconstruct_icon sample_fs (some cursor_dir_c) [cursor_c] = some []
      ∧ 6 + 16 * cursor_dir_c.Count
          + (cursor_dir_c.Entries.map
              (fun e => (matched_raw sample_fs [cursor_c] e).length - 4)).sum = 22)
    ∧ (cursor_dir_count0.Type_ ≠ 1
      ∧ (∀ e ∈ cursor_dir_count0.Entries, (∃ r ∈ [cursor_b], r.get_id = e.Id)
          ∧ 4 ≤ (matched_raw sample_fs [cursor_b] e).length)
      ∧ reconstruct_icon sample_fs (some cursor_dir_count0) [cursor_b]
          = some [0, 0, 2, 0, 0, 0]
      ∧ 6 + 16 * cursor_dir_count0.Count
          + (cursor_dir_count0.Entries.map
              (fun e => (matched_raw sample_fs [cursor_b] e).length - 4)).sum = 10) := by
  decide

theorem big_icon_raw :
    matched_raw big_fs [big_icon, small_icon] entry_a = List.replicate 4294967258 7 := by
  have hloc : locate_icon [big_icon, small_icon] entry_a = some big_icon := by decide
  have hmin : min 4294967258 (4294967296 - 1) = 4294967258 := by decide
  rw [matched_raw, hloc]
  simp only [Resource.get_raw_data, Resource._reach_data, big_fs, big_icon,
    Resource.numbered, Nat.succ_ne_zero, if_false, List.drop_replicate, List.take_replicate,
    hmin]

theorem small_icon_raw :
    matched_raw big_fs [big_icon, small_icon] entry_b = [7, 7] := by
  have hloc : locate_icon [big_icon, small_icon] entry_b = some small_icon := by decide
  have hmin : min 2 (4294967296 - 1) = 2 := by decide
  rw [matched_raw, hloc]
  simp only [Resource.get_raw_data, Resource._reach_data, big_fs,
    small_icon, Resource.numbered, Nat.succ_ne_zero, if_false, List.drop_replicate,
    List.take_replicate, hmin]
  rfl

/-- C2 as stated fails twice. In `icon_dir_count0` the entry has a resource with its id,
but `Count` is 0 and the result holds no record for it. With a first payload of
`2 ^ 32 - 38` bytes the payload of the second entry starts at `2 ^ 32`: its record holds
the offset 0, where the result has its header and not the raw data of the resource. -/
theorem reconstruct_icon_records_counterexample :
    (icon_dir_count0.Type_ = 1
      ∧ (∀ e ∈ icon_dir_count0.Entries, ∃ r ∈ [icon_a], r.get_id = e.Id)
      ∧ icon_dir_count0.Entries[0]? = some entry_a
      ∧ reconstruct_icon sample_fs (some icon_dir_count0) [icon_a] = some [0, 0, 1, 0, 0, 0]
      ∧ ∀ o, (List.drop (6 + 16 * 0) [0, 0, 1, 0, 0, 0]).take 16 ≠ entry_a.bytes12 ++ le32 o)
    ∧ (icon_dir_ab.Type_ = 1 ∧ icon_dir_ab.Count = icon_dir_ab.Entries.length
      ∧ (∀ e ∈ icon_dir_ab.Entries, ∃ r ∈ [big_icon, small_icon], r.get_id = e.Id)
      ∧ icon_dir_ab.Entries[1]? = some entry_b
      ∧ ∃ out, reconstruct_icon big_fs (some icon_dir_ab) [big_icon, small_icon] = some out
          ∧ ∀ o, o < 2 ^ 32 →
              (out.drop (6 + 16 * 1)).take 16 = entry_b.bytes12 ++ le32 o →
              (out.drop o).take (matched_raw big_fs [big_icon, small_icon] entry_b).length
                ≠ matched_raw big_fs [big_icon, small_icon] entry_b) := by
  refine ⟨⟨by decide, by decide, by decide, by decide, ?_⟩,
    by decide, by decide, by decide, by decide, ?_⟩
  · intro o h
    have := congrArg List.length h
    simp [bytes12_length, le32_length] at this
  · have hM : ∀ e ∈ icon_dir_ab.Entries,
        ∃ r ∈ [big_icon, small_icon], r.get_id = e.Id := by
      decide
    obtain ⟨out, hout, _, hhdr, hrec⟩ := reconstruct_icon_positions big_fs icon_dir_ab
      [big_icon, small_icon] (matched_raw big_fs [big_icon, small_icon]) (by decide)
      (fun e he => entry_payload_icon big_fs icon_dir_ab _ e (by decide) (hM e he))
    refine ⟨out, hout, ?_⟩
    intro o ho hrecord hpayload
    have h1 := (hrec 1 entry_b (by decide)).1
    have htake : icon_dir_ab.Entries.take 1 = [entry_a] := by decide
    have hpos : (6 + 16 * icon_dir_ab.Count + 4294967258) % 2 ^ 32 = 0 := by decide
    have hpt : payload_total (matched_raw big_fs [big_icon, small_icon]) [entry_a]
        = 4294967258 := by
      rw [payload_total, payload_total, big_icon_raw, List.length_replicate]
    rw [htake, hpt, hpos] at h1
    rw [h1] at hrecord
    have hle := List.append_cancel_left hrecord
    have ho0 : o = 0 := by
      have h2 := congrArg le32_value hle
      rw [le32_value_le32 o ho, le32_value_le32 0 (by decide)] at h2
      exact h2.symm
    subst ho0
    rw [small_icon_raw, List.drop_zero] at hpayload
    have h6 : (out.take 6).take 2 = out.take 2 := by
      rw [List.take_take]
      rfl
    rw [List.length_cons, List.length_cons, List.length_nil] at hpayload
    rw [← h6, hhdr] at hpayload
    simp [group_icon_directory.header_bytes, icon_dir_ab, le16] at hpayload

/-! ### The tree walk -/

/-- With a non-zero relative offset the result of `read_image_resource_directory` does
not depend on the position of the file. -/
theorem read_image_resource_directory_seek (pe : PE) (pos offset : Nat) (h : offset ≠ 0) :
    (read_image_resource_directory pe pos offset).1 = directory_ok pe offset
      ∧ (read_image_resource_directory pe pos offset).2.1 = directory_at pe offset := by
  have hstart : directory_start pe pos offset = directory_start pe 0 offset := by
    unfold directory_start
    rw [if_pos h, if_pos h]
  unfold directory_ok directory_at read_image_resource_directory
  rw [hstart]
  cases directory_start pe 0 offset <;> exact ⟨rfl, rfl⟩

/-- A successful read of the entries of a directory delivers as many as were asked. -/
theorem read_directory_entries_length (pe : PE) :
    ∀ (n pos : Nat), (read_directory_entries pe n pos).1 = true →
      (read_directory_entries pe n pos).2.1.length = n := by
  intro n
  induction n with
  | zero => intro pos _; rfl
  | succ n ih =>
    intro pos h
    rw [read_directory_entries] at h ⊢
    simp only [] at h ⊢
    by_cases hlen : (fread pe.content pos 8).length ≠ 8
    · rw [if_pos hlen] at h
      cases h
    · rw [if_neg hlen] at h ⊢
      by_cases hbit : le32_value (fread pe.content pos 8) &&& 2147483648 ≠ 0
      · rw [if_pos hbit] at h ⊢
        by_cases hoff : (pe.rva_to_offset pe.resource_rva
            + (le32_value (fread pe.content pos 8) &&& 2147483647)) % 2 ^ 32 = 0
        · rw [if_pos hoff] at h
          cases h
        · rw [if_neg hoff] at h ⊢
          rcases hstr : pe.read_string_at_offset (pos + 8)
            ((pe.rva_to_offset pe.resource_rva
              + (le32_value (fread pe.content pos 8) &&& 2147483647)) % 2 ^ 32)
            with ⟨b, s, p2⟩
          rw [hstr] at h
          cases b with
          | false => cases h
          | true =>
            simp only [List.length_cons, Nat.add_right_cancel_iff] at h ⊢
            exact ih _ h
      · rw [if_neg hbit] at h ⊢
        simp only [List.length_cons, Nat.add_right_cancel_iff] at h ⊢
        exact ih _ h

/-- A successful read of a directory delivers as many entries as its header announces. -/
theorem read_directory_body_count (pe : PE) (p : Nat)
    (h : (read_directory_body pe p).1 = true) :
    (read_directory_body pe p).2.1.Entries.length
      = (read_directory_body pe p).2.1.entry_count := by
  unfold read_directory_body at h ⊢
  simp only [] at h ⊢
  by_cases hlen : (fread pe.content p 16).length ≠ 16
  · rw [if_pos hlen] at h
    cases h
  · rw [if_neg hlen] at h ⊢
    exact read_directory_entries_length pe _ _ h

theorem directory_at_count (pe : PE) (offset : Nat) (h : directory_ok pe offset = true) :
    (directory_at pe offset).Entries.length = (directory_at pe offset).entry_count := by
  unfold directory_ok at h
  unfold directory_at
  unfold read_image_resource_directory at h ⊢
  cases hs : directory_start pe 0 offset with
  | none => rw [hs] at h; cases h
  | some p =>
    rw [hs] at h
    exact read_directory_body_count pe p h

/-- The loop over a Language node whose data entries can all be read succeeds and
appends one resource per entry, in order. -/
theorem parse_language_entries_ok (pe : PE) (it it2 : image_resource_directory_entry) :
    ∀ (es : List image_resource_directory_entry) (table : List Resource) (pos : Nat),
      (∀ it3 ∈ es, (read_data_entry pe it3).isSome = true) →
      ∃ pos2, parse_language_entries pe it it2 es table pos
        = (true, table ++ language_leaves pe it it2 es, pos2) := by
  intro es
  induction es with
  | nil => intro table pos _; exact ⟨pos, by simp [parse_language_entries, language_leaves]⟩
  | cons it3 rest ih =>
    intro table pos h
    have h3 := h it3 (List.mem_cons_self _ _)
    rcases hread : read_data_entry pe it3 with _ | ⟨entry, p2⟩
    · rw [hread] at h3; cases h3
    · obtain ⟨pos2, hrest⟩ := ih (table ++ [flatten_leaf pe it it2 it3 entry]) p2
        (fun x hx => h x (List.mem_cons_of_mem _ hx))
      refine ⟨pos2, ?_⟩
      rw [parse_language_entries, hread]
      simp only []
      rw [hrest, language_leaves, leaf_of, hread]
      simp only [List.append_assoc]

theorem language_leaves_length (pe : PE) (it it2 : image_resource_directory_entry) :
    ∀ (es : List image_resource_directory_entry),
      (∀ it3 ∈ es, (read_data_entry pe it3).isSome = true) →
      (language_leaves pe it it2 es).length = es.length := by
  intro es
  induction es with
  | nil => intro _; rfl
  | cons it3 rest ih =>
    intro h
    have h3 := h it3 (List.mem_cons_self _ _)
    rcases hread : read_data_entry pe it3 with _ | ⟨entry, p2⟩
    · rw [hread] at h3; cases h3
    · rw [language_leaves, leaf_of, hread]
      simp only [List.length_append, List.length_cons, List.length_nil]
      rw [ih (fun x hx => h x (List.mem_cons_of_mem _ hx))]
      omega

/-- The loop over a Type node whose Language nodes sit at non-zero offsets and have
readable data entries succeeds and appends the leaves below it, in order. -/
theorem parse_name_entries_ok (pe : PE) (it : image_resource_directory_entry) :
    ∀ (es : List image_resource_directory_entry) (table : List Resource) (pos : Nat),
      (∀ it2 ∈ es, it2.OffsetToData &&& 0x7FFFFFFF ≠ 0
        ∧ ∀ it3 ∈ (directory_at pe (it2.OffsetToData &&& 0x7FFFFFFF)).Entries,
            (read_data_entry pe it3).isSome = true) →
      ∃ pos2, parse_name_entries pe it es table pos
        = (true, table ++ name_leaves pe it es, pos2) := by
  intro es
  induction es with
  | nil => intro table pos _; exact ⟨pos, by simp [parse_name_entries, name_leaves]⟩
  | cons it2 rest ih =>
    intro table pos h
    obtain ⟨hoff, hleaves⟩ := h it2 (List.mem_cons_self _ _)
    have hdir := (read_image_resource_directory_seek pe pos _ hoff).2
    obtain ⟨p1, hlang⟩ := parse_language_entries_ok pe it it2 _ table
      (read_image_resource_directory pe pos (it2.OffsetToData &&& 0x7FFFFFFF)).2.2 hleaves
    obtain ⟨pos2, hrest⟩ := ih
      (table ++ language_leaves pe it it2
        (directory_at pe (it2.OffsetToData &&& 0x7FFFFFFF)).Entries) p1
      (fun x hx => h x (List.mem_cons_of_mem _ hx))
    refine ⟨pos2, ?_⟩
    rw [parse_name_entries]
    rw [hdir, hlang]
    simp only []
    rw [hrest, name_leaves]
    simp only [List.append_assoc]

/-- The loop over the root whose subdirectories sit at non-zero offsets and whose data
entries are readable succeeds and appends all leaves, in order. -/
theorem parse_type_entries_ok (pe : PE) :
    ∀ (es : List image_resource_directory_entry) (table : List Resource) (pos : Nat),
      (∀ it ∈ es, it.OffsetToData &&& 0x7FFFFFFF ≠ 0
        ∧ ∀ it2 ∈ (directory_at pe (it.OffsetToData &&& 0x7FFFFFFF)).Entries,
            it2.OffsetToData &&& 0x7FFFFFFF ≠ 0
            ∧ ∀ it3 ∈ (directory_at pe (it2.OffsetToData &&& 0x7FFFFFFF)).Entries,
                (read_data_entry pe it3).isSome = true) →
      ∃ pos2, parse_type_entries pe es table pos
        = (true, table ++ type_leaves pe es, pos2) := by
  intro es
  induction es with
  | nil => intro table pos _; exact ⟨pos, by simp [parse_type_entries, type_leaves]⟩
  | cons it rest ih =>
    intro table pos h
    obtain ⟨hoff, hnames⟩ := h it (List.mem_cons_self _ _)
    have hdir := (read_image_resource_directory_seek pe pos _ hoff).2
    obtain ⟨p1, hname⟩ := parse_name_entries_ok pe it _ table
      (read_image_resource_directory pe pos (it.OffsetToData &&& 0x7FFFFFFF)).2.2 hnames
    obtain ⟨pos2, hrest⟩ := ih
      (table ++ name_leaves pe it (directory_at pe (it.OffsetToData &&& 0x7FFFFFFF)).Entries)
      p1 (fun x hx => h x (List.mem_cons_of_mem _ hx))
    refine ⟨pos2, ?_⟩
    rw [parse_type_entries]
    rw [hdir, hname]
    simp only []
    rw [hrest, type_leaves]
    simp only [List.append_assoc]

theorem name_leaves_length (pe : PE) (it : image_resource_directory_entry) :
    ∀ (es : List image_resource_directory_entry),
      (∀ it2 ∈ es, directory_ok pe (it2.OffsetToData &&& 0x7FFFFFFF) = true
        ∧ ∀ it3 ∈ (directory_at pe (it2.OffsetToData &&& 0x7FFFFFFF)).Entries,
            (read_data_entry pe it3).isSome = true) →
      (name_leaves pe it es).length = name_leaf_count pe es := by
  intro es
  induction es with
  | nil => intro _; rfl
  | cons it2 rest ih =>
    intro h
    obtain ⟨hok, hleaves⟩ := h it2 (List.mem_cons_self _ _)
    have hrest := ih (fun x hx => h x (List.mem_cons_of_mem _ hx))
    unfold name_leaf_count at hrest ⊢
    rw [name_leaves, List.length_append, language_leaves_length pe it it2 _ hleaves,
      directory_at_count pe _ hok, hrest]
    simp only [List.map_cons, List.sum_cons]

theorem type_leaves_length (pe : PE) :
    ∀ (es : List image_resource_directory_entry),
      (∀ it ∈ es, ∀ it2 ∈ (directory_at pe (it.OffsetToData &&& 0x7FFFFFFF)).Entries,
          directory_ok pe (it2.OffsetToData &&& 0x7FFFFFFF) = true
          ∧ ∀ it3 ∈ (directory_at pe (it2.OffsetToData &&& 0x7FFFFFFF)).Entries,
              (read_data_entry pe it3).isSome = true) →
      (type_leaves pe es).length = type_leaf_count pe es := by
  intro es
  induction es with
  | nil => intro _; rfl
  | cons it rest ih =>
    intro h
    have hnames := h it (List.mem_cons_self _ _)
    have hrest := ih (fun x hx => h x (List.mem_cons_of_mem _ hx))
    unfold type_leaf_count at hrest ⊢
    rw [type_leaves, List.length_append, name_leaves_length pe it _ hnames, hrest]
    simp only [List.map_cons, List.sum_cons]

/-- The loop over a Language node only appends flattened leaves to the table. -/
theorem parse_language_entries_appends (pe : PE) (it it2 : image_resource_directory_entry) :
    ∀ (es : List image_resource_directory_entry) (table : List Resource) (pos : Nat),
      ∃ added, (parse_language_entries pe it it2 es table pos).2.1 = table ++ added
        ∧ ∀ r ∈ added, ∃ it3 entry p, read_data_entry pe it3 = some (entry, p)
            ∧ r = flatten_leaf pe it it2 it3 entry := by
  intro es
  induction es with
  | nil => intro table pos; exact ⟨[], by simp [parse_language_entries]⟩
  | cons it3 rest ih =>
    intro table pos
    rcases hread : read_data_entry pe it3 with _ | ⟨entry, p2⟩
    · refine ⟨[], ?_, by simp⟩
      rw [parse_language_entries, hread]
      simp
    · obtain ⟨added, hadd, hleaf⟩ := ih (table ++ [flatten_leaf pe it it2 it3 entry]) p2
      refine ⟨flatten_leaf pe it it2 it3 entry :: added, ?_, ?_⟩
      · rw [parse_language_entries, hread]
        simp only []
        rw [hadd]
        simp
      · intro r hr
        rcases List.mem_cons.mp hr with h | h
        · exact ⟨it3, entry, p2, hread, h⟩
        · exact hleaf r h

/-- The loop over a Type node only appends flattened leaves to the table. -/
theorem parse_name_entries_appends (pe : PE) (it : image_resource_directory_entry) :
    ∀ (es : List image_resource_directory_entry) (table : List Resource) (pos : Nat),
      ∃ added, (parse_name_entries pe it es table pos).2.1 = table ++ added
        ∧ ∀ r ∈ added, is_flattened_leaf pe r := by
  intro es
  induction es with
  | nil => intro table pos; exact ⟨[], by simp [parse_name_entries]⟩
  | cons it2 rest ih =>
    intro table pos
    obtain ⟨a1, h1, hl1⟩ := parse_language_entries_appends pe it it2
      (read_image_resource_directory pe pos (it2.OffsetToData &&& 0x7FFFFFFF)).2.1.Entries table
      (read_image_resource_directory pe pos (it2.OffsetToData &&& 0x7FFFFFFF)).2.2
    have hl1b : ∀ r ∈ a1, is_flattened_leaf pe r := by
      intro r hr
      obtain ⟨it3, entry, p, hread, hr2⟩ := hl1 r hr
      exact ⟨it, it2, it3, entry, p, hread, hr2⟩
    rw [parse_name_entries]
    rcases hres : parse_language_entries pe it it2
      (read_image_resource_directory pe pos (it2.OffsetToData &&& 0x7FFFFFFF)).2.1.Entries table
      (read_image_resource_directory pe pos (it2.OffsetToData &&& 0x7FFFFFFF)).2.2
      with ⟨ok, t2, p2⟩
    rw [hres] at h1
    simp only [] at h1
    cases ok with
    | false => exact ⟨a1, h1, hl1b⟩
    | true =>
      simp only []
      obtain ⟨a2, h2, hl2⟩ := ih t2 p2
      refine ⟨a1 ++ a2, ?_, ?_⟩
      · rw [h2, h1, List.append_assoc]
      · intro r hr
        rcases List.mem_append.mp hr with h | h
        · exact hl1b r h
        · exact hl2 r h

/-- The loop over the root only appends flattened leaves to the table. -/
theorem parse_type_entries_appends (pe : PE) :
    ∀ (es : List image_resource_directory_entry) (table : List Resource) (pos : Nat),
      ∃ added, (parse_type_entries pe es table pos).2.1 = table ++ added
        ∧ ∀ r ∈ added, is_flattened_leaf pe r := by
  intro es
  induction es with
  | nil => intro table pos; exact ⟨[], by simp [parse_type_entries]⟩
  | cons it rest ih =>
    intro table pos
    obtain ⟨a1, h1, hl1⟩ := parse_name_entries_appends pe it
      (read_image_resource_directory pe pos (it.OffsetToData &&& 0x7FFFFFFF)).2.1.Entries table
      (read_image_resource_directory pe pos (it.OffsetToData &&& 0x7FFFFFFF)).2.2
    rw [parse_type_entries]
    rcases hres : parse_name_entries pe it
      (read_image_resource_directory pe pos (it.OffsetToData &&& 0x7FFFFFFF)).2.1.Entries table
      (read_image_resource_directory pe pos (it.OffsetToData &&& 0x7FFFFFFF)).2.2
      with ⟨ok, t2, p2⟩
    rw [hres] at h1
    simp only [] at h1
    cases ok with
    | false => exact ⟨a1, h1, hl1⟩
    | true =>
      simp only []
      obtain ⟨a2, h2, hl2⟩ := ih t2 p2
      refine ⟨a1 ++ a2, ?_, ?_⟩
      · rw [h2, h1, List.append_assoc]
      · intro r hr
        rcases List.mem_append.mp hr with h | h
        · exact hl1 r h
        · exact hl2 r h

/-- C7: a directory read that fails does not make `_parse_resources` fail. In
`image_truncated` the root cannot be read, in `image_bad_type` the node of the second
Type entry cannot be read; in both cases `_parse_resources` returns true, in the second
with the resources of the first type in the table. -/
theorem parse_resources_ignores_failed_reads :
    (read_image_resource_directory (sample_pe image_truncated) 16 0).1 = false
      ∧ _parse_resources (sample_pe image_truncated) [] = (true, [])
      ∧ (read_image_resource_directory (sample_pe image_bad_type) 16 0).2.1.Entries
          = [⟨3, 0x80000000 + 32, ""⟩, ⟨24, 0x80000000 + 4000, ""⟩]
      ∧ directory_ok (sample_pe image_bad_type) 4000 = false
      ∧ (_parse_resources (sample_pe image_bad_type) []).1 = true
      ∧ (_parse_resources (sample_pe image_bad_type) []).2.length = 2 := by
  decide

/-- The walk only appends flattened leaves to the table it finds. -/
theorem parse_resources_added (pe : PE) (table : List Resource) :
    ∃ added, (_parse_resources pe table).2 = table ++ added
      ∧ ∀ r ∈ added, is_flattened_leaf pe r := by
  unfold _parse_resources
  cases pe.reach_directory with
  | none => exact ⟨[], by simp⟩
  | some pos =>
    simp only []
    exact parse_type_entries_appends pe _ table _

/-- The loop over a Language node stops at the first entry whose data entry cannot be
read: it returns false and the leaves of the entries before it are in the table. -/
theorem parse_language_entries_fail (pe : PE) (it it2 it3 : image_resource_directory_entry)
    (lpost : List image_resource_directory_entry) (hbad : read_data_entry pe it3 = none) :
    ∀ (lpre : List image_resource_directory_entry) (table : List Resource) (pos : Nat),
      (∀ x ∈ lpre, (read_data_entry pe x).isSome = true) →
      ∃ pos2, parse_language_entries pe it it2 (lpre ++ it3 :: lpost) table pos
        = (false, table ++ language_leaves pe it it2 lpre, pos2) := by
  intro lpre
  induction lpre with
  | nil =>
    intro table pos _
    refine ⟨pos, ?_⟩
    rw [List.nil_append, parse_language_entries, hbad, language_leaves, List.append_nil]
  | cons x rest ih =>
    intro table pos h
    have hx := h x (List.mem_cons_self _ _)
    rcases hread : read_data_entry pe x with _ | ⟨entry, p2⟩
    · rw [hread] at hx; cases hx
    · obtain ⟨pos2, hrest⟩ := ih (table ++ [flatten_leaf pe it it2 x entry]) p2
        (fun y hy => h y (List.mem_cons_of_mem _ hy))
      refine ⟨pos2, ?_⟩
      rw [List.cons_append, parse_language_entries, hread]
      simp only []
      rw [hrest, language_leaves, leaf_of, hread]
      simp only [List.append_assoc]

/-- The loop over a Type node stops inside the first Language node that has an unreadable
data entry: the leaves below the Name entries before it and the leaves of the Language
entries before the unreadable one are in the table. -/
theorem parse_name_entries_fail (pe : PE) (it it2 it3 : image_resource_directory_entry)
    (npost lpre lpost : List image_resource_directory_entry)
    (hoff2 : it2.OffsetToData &&& 0x7FFFFFFF ≠ 0)
    (hdir2 : (directory_at pe (it2.OffsetToData &&& 0x7FFFFFFF)).Entries
      = lpre ++ it3 :: lpost)
    (hlpre : ∀ x ∈ lpre, (read_data_entry pe x).isSome = true)
    (hbad : read_data_entry pe it3 = none) :
    ∀ (npre : List image_resource_directory_entry) (table : List Resource) (pos : Nat),
      (∀ x2 ∈ npre, x2.OffsetToData &&& 0x7FFFFFFF ≠ 0
        ∧ ∀ x3 ∈ (directory_at pe (x2.OffsetToData &&& 0x7FFFFFFF)).Entries,
            (read_data_entry pe x3).isSome = true) →
      ∃ pos2, parse_name_entries pe it (npre ++ it2 :: npost) table pos
        = (false, table ++ (name_leaves pe it npre ++ language_leaves pe it it2 lpre),
            pos2) := by
  intro npre
  induction npre with
  | nil =>
    intro table pos _
    have hdir := (read_image_resource_directory_seek pe pos _ hoff2).2
    obtain ⟨p1, hlang⟩ := parse_language_entries_fail pe it it2 it3 lpost hbad lpre table
      (read_image_resource_directory pe pos (it2.OffsetToData &&& 0x7FFFFFFF)).2.2 hlpre
    refine ⟨p1, ?_⟩
    rw [List.nil_append, parse_name_entries, hdir, hdir2, hlang, name_leaves,
      List.nil_append]
  | cons x2 rest ih =>
    intro table pos h
    obtain ⟨hoff, hleaves⟩ := h x2 (List.mem_cons_self _ _)
    have hdir := (read_image_resource_directory_seek pe pos _ hoff).2
    obtain ⟨p1, hlang⟩ := parse_language_entries_ok pe it x2 _ table
      (read_image_resource_directory pe pos (x2.OffsetToData &&& 0x7FFFFFFF)).2.2 hleaves
    obtain ⟨pos2, hrest⟩ := ih
      (table ++ language_leaves pe it x2
        (directory_at pe (x2.OffsetToData &&& 0x7FFFFFFF)).Entries) p1
      (fun y hy => h y (List.mem_cons_of_mem _ hy))
    refine ⟨pos2, ?_⟩
    rw [List.cons_append, parse_name_entries, hdir, hlang]
    simp only []
    rw [hrest, name_leaves]
    simp only [List.append_assoc]

/-- The loop over the root stops inside the first Type node below which a data entry
cannot be read: the leaves of the Type entries before it, of the Name entries before
the failing one and of the Language entries before the unreadable one are in the
table. -/
theorem parse_type_entries_fail (pe : PE) (it it2 it3 : image_resource_directory_entry)
    (tpost npre npost lpre lpost : List image_resource_directory_entry)
    (hoff : it.OffsetToData &&& 0x7FFFFFFF ≠ 0)
    (hdir1 : (directory_at pe (it.OffsetToData &&& 0x7FFFFFFF)).Entries
      = npre ++ it2 :: npost)
    (hnpre : ∀ x2 ∈ npre, x2.OffsetToData &&& 0x7FFFFFFF ≠ 0
      ∧ ∀ x3 ∈ (directory_at pe (x2.OffsetToData &&& 0x7FFFFFFF)).Entries,
          (read_data_entry pe x3).isSome = true)
    (hoff2 : it2.OffsetToData &&& 0x7FFFFFFF ≠ 0)
    (hdir2 : (directory_at pe (it2.OffsetToData &&& 0x7FFFFFFF)).Entries
      = lpre ++ it3 :: lpost)
    (hlpre : ∀ x ∈ lpre, (read_data_entry pe x).isSome = true)
    (hbad : read_data_entry pe it3 = none) :
    ∀ (tpre : List image_resource_directory_entry) (table : List Resource) (pos : Nat),
      (∀ x ∈ tpre, x.OffsetToData &&& 0x7FFFFFFF ≠ 0
        ∧ ∀ x2 ∈ (directory_at pe (x.OffsetToData &&& 0x7FFFFFFF)).Entries,
            x2.OffsetToData &&& 0x7FFFFFFF ≠ 0
            ∧ ∀ x3 ∈ (directory_at pe (x2.OffsetToData &&& 0x7FFFFFFF)).Entries,
                (read_data_entry pe x3).isSome = true) →
      ∃ pos2, parse_type_entries pe (tpre ++ it :: tpost) table pos
        = (false, table ++ (type_leaves pe tpre
            ++ (name_leaves pe it npre ++ language_leaves pe it it2 lpre)), pos2) := by
  intro tpre
  induction tpre with
  | nil =>
    intro table pos _
    have hdir := (read_image_resource_directory_seek pe pos _ hoff).2
    obtain ⟨p1, hname⟩ := parse_name_entries_fail pe it it2 it3 npost lpre lpost hoff2 hdir2
      hlpre hbad npre table
      (read_image_resource_directory pe pos (it.OffsetToData &&& 0x7FFFFFFF)).2.2 hnpre
    refine ⟨p1, ?_⟩
    rw [List.nil_append, parse_type_entries, hdir, hdir1, hname, type_leaves,
      List.nil_append]
  | cons x rest ih =>
    intro table pos h
    obtain ⟨hoffx, hnames⟩ := h x (List.mem_cons_self _ _)
    have hdir := (read_image_resource_directory_seek pe pos _ hoffx).2
    obtain ⟨p1, hname⟩ := parse_name_entries_ok pe x _ table
      (read_image_resource_directory pe pos (x.OffsetToData &&& 0x7FFFFFFF)).2.2 hnames
    obtain ⟨pos2, hrest⟩ := ih
      (table ++ name_leaves pe x (directory_at pe (x.OffsetToData &&& 0x7FFFFFFF)).Entries)
      p1 (fun y hy => h y (List.mem_cons_of_mem _ hy))
    refine ⟨pos2, ?_⟩
    rw [List.cons_append, parse_type_entries, hdir, hname]
    simp only []
    rw [hrest, type_leaves]
    simp only [List.append_assoc]

/-- C8 (amended): whatever `_parse_resources` returns, the table it leaves behind is the
table it found followed by the resources flattened during the walk, and nothing is
taken back when the walk fails. When the first data entry that cannot be read is that
of the Language entry `it3`, below the Name entry `it2` of the Type entry `it`, the walk
returns false and leaves the table it found followed by every leaf that comes before
`it3` in the order of the walk: the leaves of the Type entries before `it`, those of the
Name entries before `it2`, and one resource for each Language entry before `it3`. -/
theorem parse_resources_appends (pe : PE) (table : List Resource) :
    (∃ added, (_parse_resources pe table).2 = table ++ added
      ∧ ∀ r ∈ added, is_flattened_leaf pe r)
    ∧ table.length ≤ (_parse_resources pe table).2.length
    ∧ ∀ (pos : Nat) (it it2 it3 : image_resource_directory_entry)
        (tpre tpost npre npost lpre lpost : List image_resource_directory_entry),
        pe.reach_directory = some pos →
        (read_image_resource_directory pe pos 0).2.1.Entries = tpre ++ it :: tpost →
        (∀ x ∈ tpre, x.OffsetToData &&& 0x7FFFFFFF ≠ 0
          ∧ ∀ x2 ∈ (directory_at pe (x.OffsetToData &&& 0x7FFFFFFF)).Entries,
              x2.OffsetToData &&& 0x7FFFFFFF ≠ 0
              ∧ ∀ x3 ∈ (directory_at pe (x2.OffsetToData &&& 0x7FFFFFFF)).Entries,
                  (read_data_entry pe x3).isSome = true) →
        it.OffsetToData &&& 0x7FFFFFFF ≠ 0 →
        (directory_at pe (it.OffsetToData &&& 0x7FFFFFFF)).Entries = npre ++ it2 :: npost →
        (∀ x2 ∈ npre, x2.OffsetToData &&& 0x7FFFFFFF ≠ 0
          ∧ ∀ x3 ∈ (directory_at pe (x2.OffsetToData &&& 0x7FFFFFFF)).Entries,
              (read_data_entry pe x3).isSome = true) →
        it2.OffsetToData &&& 0x7FFFFFFF ≠ 0 →
        (directory_at pe (it2.OffsetToData &&& 0x7FFFFFFF)).Entries = lpre ++ it3 :: lpost →
        (∀ x3 ∈ lpre, (read_data_entry pe x3).isSome = true) →
        read_data_entry pe it3 = none →
        _parse_resources pe table
            = (false, table ++ (type_leaves pe tpre
                ++ (name_leaves pe it npre ++ language_leaves pe it it2 lpre)))
          ∧ (language_leaves pe it it2 lpre).length = lpre.length := by
  obtain ⟨added, hadd, hleaf⟩ := parse_resources_added pe table
  refine ⟨⟨added, hadd, hleaf⟩, ?_, ?_⟩
  · rw [hadd, List.length_append]
    exact Nat.le_add_right _ _
  · intro pos it it2 it3 tpre tpost npre npost lpre lpost hreach hroot htpre hoff hdir1
      hnpre hoff2 hdir2 hlpre hbad
    refine ⟨?_, language_leaves_length pe it it2 lpre hlpre⟩
    obtain ⟨pos2, hwalk⟩ := parse_type_entries_fail pe it it2 it3 tpost npre npost lpre lpost
      hoff hdir1 hnpre hoff2 hdir2 hlpre hbad tpre table
      (read_image_resource_directory pe pos 0).2.2 htpre
    unfold _parse_resources
    rw [hreach]
    simp only []
    rw [hroot, hwalk]

/-- Witness of the amended C8 on `image_bad_leaf`: the data entry of the second Language
entry of the icon cannot be read; the walk returns false and the leaf of the first
Language entry is in the table. -/
theorem parse_resources_appends_witness :
    read_data_entry (sample_pe image_bad_leaf) ⟨1036, 4000, ""⟩ = none
      ∧ language_leaves (sample_pe image_bad_leaf) ⟨3, 0x80000000 + 32, ""⟩
          ⟨1, 0x80000000 + 56, ""⟩ [⟨1033, 136, ""⟩] = [sample_leaf]
      ∧ (_parse_resources (sample_pe image_bad_leaf) []
            = (false, [] ++ (type_leaves (sample_pe image_bad_leaf) []
                ++ (name_leaves (sample_pe image_bad_leaf) ⟨3, 0x80000000 + 32, ""⟩ []
                  ++ language_leaves (sample_pe image_bad_leaf) ⟨3, 0x80000000 + 32, ""⟩
                      ⟨1, 0x80000000 + 56, ""⟩ [⟨1033, 136, ""⟩])))
          ∧ (language_leaves (sample_pe image_bad_leaf) ⟨3, 0x80000000 + 32, ""⟩
              ⟨1, 0x80000000 + 56, ""⟩ [⟨1033, 136, ""⟩]).length
            = [(⟨1033, 136, ""⟩ : image_resource_directory_entry)].length) :=
  ⟨by decide, by decide,
    (parse_resources_appends (sample_pe image_bad_leaf) []).2.2 16
      ⟨3, 0x80000000 + 32, ""⟩ ⟨1, 0x80000000 + 56, ""⟩ ⟨1036, 4000, ""⟩
      [] [⟨24, 0x80000000 + 88, ""⟩] [] [] [⟨1033, 136, ""⟩] []
      (by decide) (by decide) (by decide) (by decide) (by decide) (by decide) (by decide)
      (by decide) (by decide) (by decide)⟩

/-- C8 as stated fails: in `image_bad_leaf` the second data entry of the icon cannot be
read, `_parse_resources` returns false, and the resource flattened before is still in
the table. -/
theorem parse_resources_appends_counterexample :
    _parse_resources (sample_pe image_bad_leaf) [] = (false, [sample_leaf]) := by
  decide

/-- C9: in a tree whose subdirectories sit at non-zero relative offsets, whose Language
nodes are read successfully and whose data entries can all be read, `_parse_resources`
succeeds and appends to the table exactly the leaves of the tree in depth-first file
order, one per Language entry: their number is the sum, over the Type entries and their
Name entries, of the entry count in the header of the Language node. -/
theorem parse_resources_well_formed (pe : PE) (table : List Resource) (pos : Nat)
    (hreach : pe.reach_directory = some pos)
    (htree : ∀ it ∈ (read_image_resource_directory pe pos 0).2.1.Entries,
      it.OffsetToData &&& 0x7FFFFFFF ≠ 0
      ∧ ∀ it2 ∈ (directory_at pe (it.OffsetToData &&& 0x7FFFFFFF)).Entries,
          it2.OffsetToData &&& 0x7FFFFFFF ≠ 0
          ∧ directory_ok pe (it2.OffsetToData &&& 0x7FFFFFFF) = true
          ∧ ∀ it3 ∈ (directory_at pe (it2.OffsetToData &&& 0x7FFFFFFF)).Entries,
              (read_data_entry pe it3).isSome = true) :
    _parse_resources pe table
        = (true, table ++ type_leaves pe (read_image_resource_directory pe pos 0).2.1.Entries)
      ∧ (type_leaves pe (read_image_resource_directory pe pos 0).2.1.Entries).length
          = type_leaf_count pe (read_image_resource_directory pe pos 0).2.1.Entries := by
  constructor
  · obtain ⟨pos2, hwalk⟩ := parse_type_entries_ok pe
      (read_image_resource_directory pe pos 0).2.1.Entries table
      (read_image_resource_directory pe pos 0).2.2
      (fun it hit => ⟨(htree it hit).1, fun it2 hit2 =>
        ⟨((htree it hit).2 it2 hit2).1, ((htree it hit).2 it2 hit2).2.2⟩⟩)
    unfold _parse_resources
    rw [hreach]
    simp only []
    rw [hwalk]
  · exact type_leaves_length pe _
      (fun it hit it2 hit2 => ((htree it hit).2 it2 hit2).2)

/-- Witness of C9 on the sample tree `image_tree`, which has three leaves. -/
theorem parse_resources_well_formed_witness :
    (sample_pe image_tree).reach_directory = some 16
      ∧ (_parse_resources (sample_pe image_tree) []).2.length = 3
      ∧ type_leaf_count (sample_pe image_tree)
          (read_image_resource_directory (sample_pe image_tree) 16 0).2.1.Entries = 3
      ∧ _parse_resources (sample_pe image_tree) []
          = (true, [] ++ type_leaves (sample_pe image_tree)
              (read_image_resource_directory (sample_pe image_tree) 16 0).2.1.Entries)
      ∧ (type_leaves (sample_pe image_tree)
            (read_image_resource_directory (sample_pe image_tree) 16 0).2.1.Entries).length
          = type_leaf_count (sample_pe image_tree)
              (read_image_resource_directory (sample_pe image_tree) 16 0).2.1.Entries :=
  ⟨rfl, by decide, by decide,
    parse_resources_well_formed (sample_pe image_tree) [] 16 rfl (by decide)⟩

/-- The part of the name reader, on `image_empty_name`, where the name of the manifest
entry has zero code units. Read with `read_unicode_string_at`, which reports success for
such a name, the entry is pushed with an empty name and its leaf is the numbered
resource 0 (the test of line 154 is `name != ""`). Read with `read_nonempty_string_at`
the entry is not pushed (line 67) and the walk flattens the two icons only. -/
theorem parse_resources_empty_name :
    (directory_at (sample_pe image_empty_name) 88).Entries
        = [⟨0x80000000 + 184, 0x80000000 + 112, ""⟩]
      ∧ (_parse_resources (sample_pe image_empty_name) []).1 = true
      ∧ (_parse_resources (sample_pe image_empty_name) []).2[2]?
          = some (Resource.numbered "RT_MANIFEST" 0 "English - United States" 0 8 216
              "sample.exe")
      ∧ ¬ reader_rejects_empty (sample_pe image_empty_name)
      ∧ (directory_at (strict_pe image_empty_name) 88).Entries = []
      ∧ directory_ok (strict_pe image_empty_name) 88 = false
      ∧ (_parse_resources (strict_pe image_empty_name) []).1 = true
      ∧ (_parse_resources (strict_pe image_empty_name) []).2.map
          (fun r => (r.get_type, r.get_name, r.get_id))
        = [("RT_ICON", "", 1), ("RT_ICON", "", 1)] := by
  refine ⟨by decide, by decide, by decide, ?_, by decide, by decide, by decide, by decide⟩
  intro h
  exact h 0 200 "" 0 (by decide) rfl

/-! ### Raw data and typed views -/

/-- The raw data of a resource whose file opens: the bytes from the offset on, `size` of
them at most; nothing for the offset 0. -/
theorem get_raw_data_of_file (fs : FileSystem) (r : Resource) (F : List Nat)
    (hF : fs r.path_to_pe = some F) :
    r.get_raw_data fs
      = if r.offset_in_file = 0 then [] else (F.drop r.offset_in_file).take r.size := by
  unfold Resource.get_raw_data Resource._reach_data
  rw [hF]
  by_cases h : r.offset_in_file = 0
  · simp [h]
  · simp [h]

/-- C11: for a resource with offset `o` and size `s` in a file of content `F`: when `o`
is not zero `get_raw_data` returns the bytes of `F` from `o` up to
`min (o + s) (length of F)`, that is `s` bytes when the file is long enough and the
shorter run otherwise, never more than `s`; when `o` is zero it returns nothing. -/
theorem get_raw_data_bytes (fs : FileSystem) (r : Resource) (F : List Nat)
    (hF : fs r.path_to_pe = some F) :
    (r.offset_in_file ≠ 0 →
        r.get_raw_data fs
            = (F.take (min (r.offset_in_file + r.size) F.length)).drop r.offset_in_file
          ∧ (r.get_raw_data fs).length = min r.size (F.length - r.offset_in_file)
          ∧ (r.offset_in_file + r.size ≤ F.length → (r.get_raw_data fs).length = r.size)
          ∧ (r.get_raw_data fs).length ≤ r.size)
      ∧ (r.offset_in_file = 0 → r.get_raw_data fs = []) := by
  rw [get_raw_data_of_file fs r F hF]
  constructor
  · intro h
    rw [if_neg h]
    have hlen : ((F.drop r.offset_in_file).take r.size).length
        = min r.size (F.length - r.offset_in_file) := by
      rw [List.length_take, List.length_drop]
    refine ⟨?_, hlen, ?_, ?_⟩
    · have hmin : F.take (min (r.offset_in_file + r.size) F.length)
          = F.take (r.offset_in_file + r.size) := by
        rw [List.take_eq_take]
        omega
      rw [hmin, List.take_drop]
    · intro hle
      rw [hlen]
      omega
    · rw [hlen]
      omega
  · intro h
    rw [if_pos h]

/-- Witness of C11: the icon `icon_b` in the sample file. -/
theorem get_raw_data_bytes_witness :
    sample_fs icon_b.path_to_pe
        = some [10, 11, 12, 13, 14, 15, 16, 17, 18, 19, 20, 21, 22, 23, 24, 25]
      ∧ icon_b.offset_in_file = 4 ∧ icon_b.size = 8
      ∧ icon_b.get_raw_data sample_fs = [14, 15, 16, 17, 18, 19, 20, 21]
      ∧ ((icon_b.offset_in_file ≠ 0 →
            icon_b.get_raw_data sample_fs
                = (List.take (min (icon_b.offset_in_file + icon_b.size)
                      [10, 11, 12, 13, 14, 15, 16, 17, 18, 19, 20, 21, 22, 23, 24, 25].length)
                    [10, 11, 12, 13, 14, 15, 16, 17, 18, 19, 20, 21, 22, 23, 24, 25]).drop
                    icon_b.offset_in_file
              ∧ (icon_b.get_raw_data sample_fs).length
                  = min icon_b.size
                      ([10, 11, 12, 13, 14, 15, 16, 17, 18, 19, 20, 21, 22, 23, 24, 25].length
                        - icon_b.offset_in_file)
              ∧ (icon_b.offset_in_file + icon_b.size
                    ≤ [10, 11, 12, 13, 14, 15, 16, 17, 18, 19, 20, 21, 22, 23, 24, 25].length →
                  (icon_b.get_raw_data sample_fs).length = icon_b.size)
              ∧ (icon_b.get_raw_data sample_fs).length ≤ icon_b.size)
          ∧ (icon_b.offset_in_file = 0 → icon_b.get_raw_data sample_fs = [])) :=
  ⟨rfl, rfl, rfl, by decide, get_raw_data_bytes sample_fs icon_b _ rfl⟩

/-- The message of line 212 is never the empty string. -/
theorem wrong_kind_message_ne_empty (type : String) :
    "Resources of type " ++ type ++ " cannot be interpreted as std::strings." ≠ "" := by
  intro h
  have hlen := congrArg String.length h
  rw [String.length_append, String.length_append] at hlen
  have h1 : "Resources of type ".length = 18 := by decide
  have h2 : "".length = 0 := by decide
  rw [h1, h2] at hlen
  omega

/-- C12 (amended): a resource of another kind has an empty string table, no bitmap and no
group directory; its string view is the message of line 212, which names the type and
is never empty. -/
theorem interpret_as_wrong_kind (read_unicode_string : List Nat → String × List Nat)
    (fs : FileSystem) (r : Resource) :
    (r.type ≠ "RT_STRING" → r.interpret_as_string_table read_unicode_string fs = [])
      ∧ (r.type ≠ "RT_BITMAP" → r.interpret_as_bitmap fs = none)
      ∧ (r.type ≠ "RT_GROUP_ICON" → r.type ≠ "RT_GROUP_CURSOR" →
          r.interpret_as_group_icon_directory fs = none)
      ∧ (r.type ≠ "RT_MANIFEST" →
          r.interpret_as_string fs
              = "Resources of type " ++ r.type ++ " cannot be interpreted as std::strings."
            ∧ r.interpret_as_string fs ≠ "") := by
  refine ⟨?_, ?_, ?_, ?_⟩
  · intro h
    unfold Resource.interpret_as_string_table
    rw [if_pos h]
  · intro h
    unfold Resource.interpret_as_bitmap
    rw [if_pos h]
  · intro h1 h2
    unfold Resource.interpret_as_group_icon_directory
    rw [if_pos ⟨h1, h2⟩]
  · intro h
    have hview : r.interpret_as_string fs
        = "Resources of type " ++ r.type ++ " cannot be interpreted as std::strings." := by
      unfold Resource.interpret_as_string
      rw [if_pos h]
    exact ⟨hview, by rw [hview]; exact wrong_kind_message_ne_empty r.type⟩

/-- Witness of the amended C12 on the icon `icon_a`, which is of none of the four kinds. -/
theorem interpret_as_wrong_kind_witness :
    icon_a.type ≠ "RT_STRING" ∧ icon_a.type ≠ "RT_BITMAP" ∧ icon_a.type ≠ "RT_GROUP_ICON"
      ∧ icon_a.type ≠ "RT_GROUP_CURSOR" ∧ icon_a.type ≠ "RT_MANIFEST"
      ∧ icon_a.interpret_as_string_table sample_read_unicode_string sample_fs = []
      ∧ icon_a.interpret_as_bitmap sample_fs = none
      ∧ icon_a.interpret_as_group_icon_directory sample_fs = none
      ∧ icon_a.interpret_as_string sample_fs
          = "Resources of type " ++ icon_a.type ++ " cannot be interpreted as std::strings."
      ∧ icon_a.interpret_as_string sample_fs ≠ "" :=
  have h := interpret_as_wrong_kind sample_read_unicode_string sample_fs icon_a
  ⟨by decide, by decide, by decide, by decide, by decide, h.1 (by decide),
    h.2.1 (by decide), h.2.2.1 (by decide) (by decide), (h.2.2.2 (by decide)).1,
    (h.2.2.2 (by decide)).2⟩

/-- C12 as stated fails for the string view: the icon `icon_a` is not a manifest and its
string view is a sentence of 64 characters. -/
theorem interpret_as_wrong_kind_counterexample :
    icon_a.type ≠ "RT_MANIFEST"
      ∧ icon_a.interpret_as_string sample_fs
          = "Resources of type RT_ICON cannot be interpreted as std::strings."
      ∧ icon_a.interpret_as_string sample_fs ≠ ""
      ∧ (icon_a.interpret_as_string sample_fs).length = 64 := by
  decide

/-- The bitmap view of a bitmap resource: absent below 36 raw bytes, otherwise the
header fields computed in 32 bits and the raw bytes. -/
theorem interpret_as_bitmap_of_kind (fs : FileSystem) (r : Resource)
    (hT : r.type = "RT_BITMAP") :
    r.interpret_as_bitmap fs
      = if (r.get_raw_data fs).length < 36 then none
        else some
          { Magic := [66, 77]
            Size := ((r.get_raw_data fs).length + 14) % 2 ^ 32
            Reserved1 := 0
            Reserved2 := 0
            OffsetToData := (14 + le32_value (r.get_raw_data fs)
              + 4 * le32_value ((r.get_raw_data fs).drop 32)) % 2 ^ 32
            data := r.get_raw_data fs } := by
  unfold Resource.interpret_as_bitmap
  simp only [hT, ne_eq, not_true_eq_false, if_false]

/-- C13 (amended): for a bitmap resource with raw bytes `D` the bitmap view is absent when
`D` has fewer than 36 bytes; otherwise it is present with the magic "BM" (66, 77), both
reserved fields 0, the data `D`, `Size` equal to `14 + length of D` as a 32-bit unsigned
value (so equal to `14 + length of D` below `2 ^ 32 - 14` bytes), and `OffsetToData`
equal to `14 + d + 4 * c` as a 32-bit unsigned value, `d` and `c` being the
little-endian 32-bit values at bytes 0 to 3 and 32 to 35 of `D`. -/
theorem interpret_as_bitmap_fields (fs : FileSystem) (r : Resource)
    (hT : r.type = "RT_BITMAP") :
    ((r.get_raw_data fs).length < 36 → r.interpret_as_bitmap fs = none)
      ∧ (36 ≤ (r.get_raw_data fs).length →
          ∃ b, r.interpret_as_bitmap fs = some b
            ∧ b.Magic = [66, 77] ∧ b.Reserved1 = 0 ∧ b.Reserved2 = 0
            ∧ b.data = r.get_raw_data fs
            ∧ b.Size = (14 + (r.get_raw_data fs).length) % 2 ^ 32
            ∧ ((r.get_raw_data fs).length < 2 ^ 32 - 14 →
                b.Size = 14 + (r.get_raw_data fs).length)
            ∧ b.OffsetToData
                = (14 + le32_value (r.get_raw_data fs)
                    + 4 * le32_value ((r.get_raw_data fs).drop 32)) % 2 ^ 32) := by
  rw [interpret_as_bitmap_of_kind fs r hT]
  constructor
  · intro h
    rw [if_pos h]
  · intro h
    rw [if_neg (by omega)]
    refine ⟨_, rfl, rfl, rfl, rfl, rfl, ?_, ?_, rfl⟩
    · simp only []
      rw [Nat.add_comm]
    · intro hlt
      simp only []
      rw [Nat.add_comm]
      exact Nat.mod_eq_of_lt (by omega)

/-- Witness of the amended C13: the bitmap of 40 bytes in `views_file`, with a header
size of 40 and 2 colours, and the same resource cut to 35 bytes. -/
theorem interpret_as_bitmap_fields_witness :
    bitmap_a.type = "RT_BITMAP" ∧ (bitmap_a.get_raw_data views_fs).length = 40
      ∧ (∃ b, bitmap_a.interpret_as_bitmap views_fs = some b
          ∧ b.Magic = [66, 77] ∧ b.Reserved1 = 0 ∧ b.Reserved2 = 0
          ∧ b.data = bitmap_a.get_raw_data views_fs
          ∧ b.Size = (14 + (bitmap_a.get_raw_data views_fs).length) % 2 ^ 32
          ∧ ((bitmap_a.get_raw_data views_fs).length < 2 ^ 32 - 14 →
              b.Size = 14 + (bitmap_a.get_raw_data views_fs).length)
          ∧ b.OffsetToData
              = (14 + le32_value (bitmap_a.get_raw_data views_fs)
                  + 4 * le32_value ((bitmap_a.get_raw_data views_fs).drop 32)) % 2 ^ 32)
      ∧ (14 + le32_value (bitmap_a.get_raw_data views_fs)
          + 4 * le32_value ((bitmap_a.get_raw_data views_fs).drop 32)) % 2 ^ 32 = 62
      ∧ bitmap_short.type = "RT_BITMAP"
      ∧ (bitmap_short.get_raw_data views_fs).length = 35
      ∧ bitmap_short.interpret_as_bitmap views_fs = none :=
  ⟨by decide, by decide,
    (interpret_as_bitmap_fields views_fs bitmap_a (by decide)).2 (by decide),
    by decide, by decide, by decide, by decide⟩

theorem bitmap_big_raw :
    bitmap_big.get_raw_data big_fs = List.replicate 4294967295 7 := by
  have hmin : min 4294967295 (4294967296 - 1) = 4294967295 := by decide
  simp only [Resource.get_raw_data, Resource._reach_data, big_fs, bitmap_big,
    Resource.numbered, Nat.succ_ne_zero, if_false, List.drop_replicate, List.take_replicate,
    hmin]

/-- The size field of the bitmap view of a bitmap resource with 36 raw bytes or more. -/
theorem interpret_as_bitmap_size (fs : FileSystem) (r : Resource)
    (hT : r.type = "RT_BITMAP") (h36 : 36 ≤ (r.get_raw_data fs).length) :
    ∃ b, r.interpret_as_bitmap fs = some b
      ∧ b.Size = ((r.get_raw_data fs).length + 14) % 2 ^ 32 := by
  rw [interpret_as_bitmap_of_kind fs r hT, if_neg (by omega)]
  exact ⟨_, rfl, rfl⟩

/-- C13 as stated fails for `Size`: a bitmap of `2 ^ 32 - 1` raw bytes gets the size 13,
not `14 + (2 ^ 32 - 1)`. -/
theorem interpret_as_bitmap_fields_counterexample :
    bitmap_big.type = "RT_BITMAP"
      ∧ (bitmap_big.get_raw_data big_fs).length = 4294967295
      ∧ ∃ b, bitmap_big.interpret_as_bitmap big_fs = some b ∧ b.Size = 13
          ∧ b.Size ≠ 14 + (bitmap_big.get_raw_data big_fs).length := by
  have hlen : (bitmap_big.get_raw_data big_fs).length = 4294967295 := by
    rw [bitmap_big_raw, List.length_replicate]
  obtain ⟨b, hb, hsize⟩ := interpret_as_bitmap_size big_fs bitmap_big (by decide)
    (by rw [hlen]; decide)
  rw [hlen] at hsize
  have h13 : b.Size = 13 := by
    rw [hsize]
    decide
  refine ⟨by decide, hlen, b, hb, h13, ?_⟩
  rw [h13, hlen]
  decide

/-- The loop of lines 234-236 delivers one string per call. -/
theorem read_unicode_strings_length (read_unicode_string : List Nat → String × List Nat) :
    ∀ (n : Nat) (stream : List Nat),
      (read_unicode_strings read_unicode_string n stream).length = n := by
  intro n
  induction n with
  | zero => intro stream; rfl
  | succ n ih =>
    intro stream
    rw [read_unicode_strings, List.length_cons, ih]

/-- C14 (amended): the string-table view of a string-table resource has exactly 16
entries when the file opens and the offset of the resource is not zero; it is the empty
list when the offset is zero or the file does not open. -/
theorem interpret_as_string_table_length
    (read_unicode_string : List Nat → String × List Nat) (fs : FileSystem) (r : Resource)
    (hT : r.type = "RT_STRING") :
    (∀ F, fs r.path_to_pe = some F → r.offset_in_file ≠ 0 →
        (r.interpret_as_string_table read_unicode_string fs).length = 16)
      ∧ (r.offset_in_file = 0 → r.interpret_as_string_table read_unicode_string fs = [])
      ∧ (fs r.path_to_pe = none →
          r.interpret_as_string_table read_unicode_string fs = []) := by
  unfold Resource.interpret_as_string_table Resource._reach_data
  simp only [hT, ne_eq, not_true_eq_false, if_false]
  refine ⟨?_, ?_, ?_⟩
  · intro F hF ho
    rw [hF]
    simp only [ho, if_false]
    exact read_unicode_strings_length read_unicode_string 16 _
  · intro ho
    cases fs r.path_to_pe with
    | none => rfl
    | some F => simp only [ho, if_true]
  · intro hF
    rw [hF]

/-- Witness of the amended C14: the string table `string_mapped` at offset 1. -/
theorem interpret_as_string_table_length_witness :
    string_mapped.type = "RT_STRING" ∧ string_mapped.offset_in_file ≠ 0
      ∧ (string_mapped.interpret_as_string_table sample_read_unicode_string
          sample_fs).length = 16 :=
  ⟨by decide, by decide,
    (interpret_as_string_table_length sample_read_unicode_string sample_fs string_mapped
      (by decide)).1 _ rfl (by decide)⟩

/-- C14 as stated fails: the string table `string_unmapped` has the offset 0 and its
view has no entry. -/
theorem interpret_as_string_table_length_counterexample :
    string_unmapped.type = "RT_STRING" ∧ string_unmapped.offset_in_file = 0
      ∧ string_unmapped.interpret_as_string_table sample_read_unicode_string sample_fs = []
      ∧ (string_unmapped.interpret_as_string_table sample_read_unicode_string
          sample_fs).length ≠ 16 := by
  decide

/-! ### The group directory view -/

/-- A read that finds all its bytes advances by their number and leaves the end-of-file
indicator as it was. -/
theorem fread_full (s : FileStream) (n : Nat) (h : s.pos + n ≤ s.content.length) :
    s.fread n = ((s.content.drop s.pos).take n,
      { content := s.content, pos := s.pos + n, eof := s.eof }) := by
  have hlen : ((s.content.drop s.pos).take n).length = n := by
    rw [List.length_take, List.length_drop]
    omega
  unfold FileStream.fread fread
  simp only [hlen, Nat.lt_irrefl, decide_False, Bool.or_false]

/-- A read that finds fewer bytes than asked sets the end-of-file indicator. -/
theorem fread_short (s : FileStream) (n : Nat) (hn : 0 < n)
    (h : s.content.length < s.pos + n) : (s.fread n).2.eof = true := by
  have hlen : ((s.content.drop s.pos).take n).length < n := by
    rw [List.length_take, List.length_drop, Nat.min_def]
    split <;> omega
  unfold FileStream.fread fread
  simp only [hlen, decide_True, Bool.or_true]

/-- A read does not clear the end-of-file indicator. -/
theorem fread_eof (s : FileStream) (n : Nat) (h : s.eof = true) :
    (s.fread n).2.eof = true := by
  unfold FileStream.fread
  simp only [h, Bool.true_or]

theorem getD_take_drop (l : List Nat) (a n k : Nat) (hk : k < n) :
    ((l.drop a).take n).getD k 0 = l.getD (a + k) 0 := by
  simp only [List.getD_eq_getElem?_getD, List.getElem?_take, hk, if_true,
    List.getElem?_drop]

theorem getD_drop (l : List Nat) (a k : Nat) : (l.drop a).getD k 0 = l.getD (a + k) 0 := by
  simp only [List.getD_eq_getElem?_getD, List.getElem?_drop]

/-- A cursor entry whose 14 bytes are all in the file is read as `cursor_entry_at` says,
and the file is left after it with the end-of-file indicator clear. -/
theorem read_cursor_entry_full (s : FileStream) (h : s.pos + 14 ≤ s.content.length) :
    read_cursor_entry s = (cursor_entry_at (s.content.drop s.pos),
      { content := s.content, pos := s.pos + 14, eof := false }) := by
  unfold read_cursor_entry
  simp only []
  rw [fread_full s 1 (by omega)]
  simp only [FileStream.fseek_cur]
  rw [fread_full _ 1 (by simp only []; omega)]
  simp only []
  rw [fread_full _ 2 (by simp only []; omega)]
  simp only []
  rw [fread_full _ 2 (by simp only []; omega)]
  simp only []
  rw [fread_full _ 4 (by simp only []; omega)]
  simp only []
  rw [fread_full _ 2 (by simp only []; omega)]
  simp only [cursor_entry_at, le16_value, le32_value, getD_take_drop, getD_drop,
    List.drop_drop, Nat.lt_add_one, Nat.zero_lt_succ, Nat.one_lt_ofNat, Prod.mk.injEq,
    FileStream.mk.injEq, and_true, true_and, group_icon_directory_entry.mk.injEq]
  rw [getD_take_drop _ _ 4 2 (by decide)]


/-- Four reads in a row, of 2, 2, 4 and 2 bytes, set the end-of-file indicator when
fewer than 10 bytes are left. -/
theorem reads_eof (t : FileStream) (h : t.content.length < t.pos + 10) :
    ((((t.fread 2).2.fread 2).2.fread 4).2.fread 2).2.eof = true := by
  by_cases h1 : t.pos + 2 ≤ t.content.length
  · rw [fread_full t 2 h1]
    dsimp only
    by_cases h2 : t.pos + 2 + 2 ≤ t.content.length
    · rw [fread_full ⟨t.content, t.pos + 2, t.eof⟩ 2 h2]
      dsimp only
      by_cases h3 : t.pos + 2 + 2 + 4 ≤ t.content.length
      · rw [fread_full ⟨t.content, t.pos + 2 + 2, t.eof⟩ 4 h3]
        exact fread_short _ 2 (by decide) (by dsimp only; omega)
      · exact fread_eof _ 2 (fread_short _ 4 (by decide) (by dsimp only; omega))
    · exact fread_eof _ 2 (fread_eof _ 4 (fread_short _ 2 (by decide)
        (by dsimp only; omega)))
  · exact fread_eof _ 2 (fread_eof _ 4 (fread_eof _ 2 (fread_short t 2 (by decide)
      (by omega))))

/-- The position after a read. -/
theorem fread_pos (s : FileStream) (n : Nat) :
    (s.fread n).2.pos = s.pos + min n (s.content.length - s.pos)
      ∧ (s.fread n).2.content = s.content := by
  unfold FileStream.fread fread
  simp only [List.length_take, List.length_drop, and_self]

/-- A cursor entry whose 14 bytes are not all in the file leaves the end-of-file
indicator set. -/
theorem read_cursor_entry_short (s : FileStream) (h : s.content.length < s.pos + 14) :
    (read_cursor_entry s).2.eof = true := by
  unfold read_cursor_entry
  simp only []
  apply reads_eof
  simp only [FileStream.fseek_cur, (fread_pos _ _).1, (fread_pos _ _).2]
  rw [Nat.min_def, Nat.min_def]
  split <;> split <;> omega

theorem cursor_entries_at_length (bs : List Nat) (n : Nat) :
    (cursor_entries_at bs n).length = n := by
  induction n generalizing bs with
  | zero => rfl
  | succ n ih => rw [cursor_entries_at, List.length_cons, ih]

theorem cursor_entries_at_getElem? :
    ∀ (n : Nat) (bs : List Nat) (i : Nat), i < n →
      (cursor_entries_at bs n)[i]? = some (cursor_entry_at (bs.drop (14 * i))) := by
  intro n
  induction n with
  | zero => intro bs i hi; omega
  | succ n ih =>
    intro bs i hi
    cases i with
    | zero => simp [cursor_entries_at]
    | succ i =>
      rw [cursor_entries_at, List.getElem?_cons_succ, ih (bs.drop 14) i (by omega),
        List.drop_drop]
      congr 3
      omega

/-- The loop over cursor entries that are all in the file delivers them all. -/
theorem read_group_entries_cursor_full :
    ∀ (n : Nat) (s : FileStream), s.pos + 14 * n ≤ s.content.length →
      read_group_entries false n s = some (cursor_entries_at (s.content.drop s.pos) n) := by
  intro n
  induction n with
  | zero => intro s _; rfl
  | succ n ih =>
    intro s h
    rw [read_group_entries]
    simp only [Bool.false_eq_true, if_false]
    rw [read_cursor_entry_full s (by omega)]
    simp only [Bool.false_eq_true, if_false]
    rw [ih ⟨s.content, s.pos + 14, false⟩ (by dsimp only; omega)]
    simp only [Option.map_some', cursor_entries_at, List.drop_drop]

/-- The loop over cursor entries resets the directory when the file ends before the last
of them. -/
theorem read_group_entries_cursor_short :
    ∀ (n : Nat) (s : FileStream), s.pos ≤ s.content.length →
      s.content.length < s.pos + 14 * n → read_group_entries false n s = none := by
  intro n
  induction n with
  | zero => intro s hp h; omega
  | succ n ih =>
    intro s hp h
    rw [read_group_entries]
    simp only [Bool.false_eq_true, if_false]
    by_cases h14 : s.pos + 14 ≤ s.content.length
    · rw [read_cursor_entry_full s h14]
      simp only [Bool.false_eq_true, if_false]
      rw [ih ⟨s.content, s.pos + 14, false⟩ (by dsimp only; omega) (by dsimp only; omega)]
      rfl
    · rw [if_pos (read_cursor_entry_short s (by omega))]

/-- The header read of the group directory view on a stream of 6 bytes or more. -/
theorem fread_header (stream : List Nat) (h : 6 ≤ stream.length) :
    FileStream.fread { content := stream, pos := 0, eof := false } 6
      = (stream.take 6, { content := stream, pos := 6, eof := false }) := by
  rw [fread_full _ 6 (by dsimp only; omega)]
  simp only [List.drop_zero, Nat.zero_add]

theorem le16_value_take (stream : List Nat) (a n : Nat) (hn : a + 2 ≤ n) :
    le16_value ((stream.take n).drop a) = le16_value (stream.drop a) := by
  simp only [le16_value, List.getD_eq_getElem?_getD, List.getElem?_drop, List.getElem?_take]
  rw [if_pos (by omega), if_pos (by omega)]

/-- C17: for a cursor group resource whose file opens with content `F` and whose offset is
not zero, let `stream` be the bytes of `F` from the offset on. When `stream` holds the 6
header bytes with the count `n` at bytes 4 and 5 and at least `14 * n` bytes more, the
view is present with the count `n` and exactly `n` entries, entry `i` being read from
the 14 bytes at `6 + 14 * i` as `cursor_entry_at` says; when `stream` holds fewer bytes,
the view is absent. -/
theorem interpret_as_group_cursor (fs : FileSystem) (r : Resource) (F : List Nat)
    (hT : r.type = "RT_GROUP_CURSOR") (hF : fs r.path_to_pe = some F)
    (ho : r.offset_in_file ≠ 0) :
    (6 ≤ (F.drop r.offset_in_file).length →
        6 + 14 * le16_value ((F.drop r.offset_in_file).drop 4)
          ≤ (F.drop r.offset_in_file).length →
        ∃ d, r.interpret_as_group_icon_directory fs = some d
          ∧ d.Reserved = le16_value (F.drop r.offset_in_file)
          ∧ d.Type_ = le16_value ((F.drop r.offset_in_file).drop 2)
          ∧ d.Count = le16_value ((F.drop r.offset_in_file).drop 4)
          ∧ d.Entries.length = le16_value ((F.drop r.offset_in_file).drop 4)
          ∧ ∀ i, i < le16_value ((F.drop r.offset_in_file).drop 4) →
              d.Entries[i]?
                = some (cursor_entry_at ((F.drop r.offset_in_file).drop (6 + 14 * i))))
      ∧ ((F.drop r.offset_in_file).length < 6 →
          r.interpret_as_group_icon_directory fs = none)
      ∧ (6 ≤ (F.drop r.offset_in_file).length →
          (F.drop r.offset_in_file).length
            < 6 + 14 * le16_value ((F.drop r.offset_in_file).drop 4) →
          r.interpret_as_group_icon_directory fs = none) := by
  have hreach : r._reach_data fs = some (F.drop r.offset_in_file) := by
    unfold Resource._reach_data
    rw [hF]
    simp only [ho, if_false]
  have hkind : ¬ (r.type ≠ "RT_GROUP_ICON" ∧ r.type ≠ "RT_GROUP_CURSOR") := by
    intro h
    exact h.2 hT
  have hicon : (r.type == "RT_GROUP_ICON") = false := by
    rw [hT]
    decide
  unfold Resource.interpret_as_group_icon_directory
  rw [if_neg hkind, hreach]
  simp only []
  generalize F.drop r.offset_in_file = stream
  refine ⟨?_, ?_, ?_⟩
  · intro h6 hall
    rw [fread_header stream h6]
    simp only [List.length_take, Nat.min_eq_left h6, ne_eq, not_true_eq_false, if_false,
      hicon, le16_value_take stream 4 6 (by omega)]
    rw [read_group_entries_cursor_full _ _ (by dsimp only; omega)]
    refine ⟨_, rfl, ?_, ?_, rfl, ?_, ?_⟩
    · simp only [le16_value, List.getD_eq_getElem?_getD, List.getElem?_take]
      rw [if_pos (by omega), if_pos (by omega)]
    · exact le16_value_take stream 2 6 (by omega)
    · exact cursor_entries_at_length _ _
    · intro i hi
      dsimp only
      rw [cursor_entries_at_getElem? _ _ i hi, List.drop_drop]
  · intro h6
    have hshort : (FileStream.fread { content := stream, pos := 0, eof := false } 6).1.length
        ≠ 6 := by
      unfold FileStream.fread fread
      simp only [List.drop_zero, List.length_take]
      omega
    rw [if_pos hshort]
  · intro h6 hshort
    rw [fread_header stream h6]
    simp only [List.length_take, Nat.min_eq_left h6, ne_eq, not_true_eq_false, if_false,
      hicon, le16_value_take stream 4 6 (by omega)]
    rw [read_group_entries_cursor_short _ _ (by dsimp only; omega) (by dsimp only; omega)]

/-- Witness of C17: the cursor group of `views_file`, with two entries. -/
theorem interpret_as_group_cursor_witness :
    cursor_group.type = "RT_GROUP_CURSOR" ∧ views_fs cursor_group.path_to_pe = some views_file
      ∧ cursor_group.offset_in_file ≠ 0
      ∧ le16_value ((views_file.drop cursor_group.offset_in_file).drop 4) = 2
      ∧ (views_file.drop cursor_group.offset_in_file).length = 34
      ∧ (cursor_group.interpret_as_group_icon_directory views_fs).map
          (fun d => d.Entries)
          = some [⟨32, 32, 0, 0, 1, 2, 308, 1⟩, ⟨16, 16, 0, 0, 3, 4, 44, 2⟩]
      ∧ ∃ d, cursor_group.interpret_as_group_icon_directory views_fs = some d
          ∧ d.Reserved = le16_value (views_file.drop cursor_group.offset_in_file)
          ∧ d.Type_ = le16_value ((views_file.drop cursor_group.offset_in_file).drop 2)
          ∧ d.Count = le16_value ((views_file.drop cursor_group.offset_in_file).drop 4)
          ∧ d.Entries.length
              = le16_value ((views_file.drop cursor_group.offset_in_file).drop 4)
          ∧ ∀ i, i < le16_value ((views_file.drop cursor_group.offset_in_file).drop 4) →
              d.Entries[i]?
                = some (cursor_entry_at
                    ((views_file.drop cursor_group.offset_in_file).drop (6 + 14 * i))) :=
  ⟨by decide, rfl, by decide, by decide, by decide, by decide,
    (interpret_as_group_cursor views_fs cursor_group views_file (by decide) rfl
      (by decide)).1 (by decide) (by decide)⟩

/-! ### Offsets and writes of the icon reconstruction -/

/-- The data-offset field of a record that ends with the four bytes of `v`. -/
theorem offset_field_of_record (out b12 : List Nat) (i v : Nat) (hb : b12.length = 12)
    (hv : v < 2 ^ 32) (hrec : (out.drop (6 + 16 * i)).take 16 = b12 ++ le32 v) :
    offset_field out i = v := by
  have h4 : (out.drop (6 + 16 * i + 12)).take 4 = le32 v := by
    have h1 : ((out.drop (6 + 16 * i)).take 16).drop 12 = le32 v := by
      rw [hrec, ← hb, List.drop_left]
    rw [List.drop_take, List.drop_drop] at h1
    rw [← h1]
  unfold offset_field
  rw [h4, le32_value_le32 v hv]

theorem payload_total_take_succ (pay : group_icon_directory_entry → List Nat) :
    ∀ (es : List group_icon_directory_entry) (i : Nat) (e : group_icon_directory_entry),
      es[i]? = some e →
      payload_total pay (es.take (i + 1)) = payload_total pay (es.take i) + (pay e).length := by
  intro es
  induction es with
  | nil => intro i e h; simp at h
  | cons e0 es ih =>
    intro i e h
    cases i with
    | zero =>
      simp only [List.getElem?_cons_zero, Option.some.injEq] at h
      subst h
      simp [payload_total]
    | succ i =>
      simp only [List.getElem?_cons_succ] at h
      rw [List.take_succ_cons, List.take_succ_cons, payload_total, payload_total,
        ih i e h, Nat.add_assoc]

theorem payload_total_take_le (pay : group_icon_directory_entry → List Nat) :
    ∀ (es : List group_icon_directory_entry) (i : Nat),
      payload_total pay (es.take i) ≤ payload_total pay es := by
  intro es
  induction es with
  | nil => intro i; simp [payload_total]
  | cons e0 es ih =>
    intro i
    cases i with
    | zero => simp [payload_total]
    | succ i =>
      rw [List.take_succ_cons, payload_total, payload_total]
      exact Nat.add_le_add_left (ih i) _

/-- C16 (amended): for an icon directory (`Type = 1`) whose `Count` is its number of
entries, whose entries all have a resource with their id in the table and whose result
is shorter than `2 ^ 32` bytes, the data-offset fields written for two consecutive
entries satisfy `offset (i + 1) = offset i + len i`, `len i` being the length of the raw
data located for entry `i`: the offsets never decrease, they increase strictly when
`len i` is positive and stay equal when it is zero, and the regions do not overlap. -/
theorem reconstruct_icon_offsets (fs : FileSystem) (d : group_icon_directory)
    (resources : List Resource) (hT : d.Type_ = 1) (hC : d.Count = d.Entries.length)
    (hM : ∀ e ∈ d.Entries, ∃ r ∈ resources, r.get_id = e.Id)
    (hsize : 6 + 16 * d.Count
      + (d.Entries.map (fun e => (matched_raw fs resources e).length)).sum < 2 ^ 32) :
    ∃ out, reconstruct_icon fs (some d) resources = some out
      ∧ ∀ i e e2, d.Entries[i]? = some e → d.Entries[i + 1]? = some e2 →
          offset_field out (i + 1)
              = offset_field out i + (matched_raw fs resources e).length
            ∧ offset_field out i + (matched_raw fs resources e).length
                ≤ offset_field out (i + 1)
            ∧ (0 < (matched_raw fs resources e).length →
                offset_field out i < offset_field out (i + 1))
            ∧ ((matched_raw fs resources e).length = 0 →
                offset_field out (i + 1) = offset_field out i) := by
  obtain ⟨out, hout, _, _, hrec⟩ := reconstruct_icon_positions fs d resources
    (matched_raw fs resources) hC
    (fun e he => entry_payload_icon fs d resources e hT (hM e he))
  refine ⟨out, hout, ?_⟩
  intro i e e2 he he2
  rw [← payload_total_eq_sum] at hsize
  have hle1 := payload_total_take_le (matched_raw fs resources) d.Entries (i + 1)
  have hsucc := payload_total_take_succ (matched_raw fs resources) d.Entries i e he
  have hlt1 : 6 + 16 * d.Count
      + payload_total (matched_raw fs resources) (d.Entries.take (i + 1)) < 2 ^ 32 := by
    omega
  have hlt0 : 6 + 16 * d.Count
      + payload_total (matched_raw fs resources) (d.Entries.take i) < 2 ^ 32 := by
    omega
  have h0 := (hrec i e he).1
  have h1 := (hrec (i + 1) e2 he2).1
  rw [Nat.mod_eq_of_lt hlt0] at h0
  rw [Nat.mod_eq_of_lt hlt1] at h1
  have ho0 := offset_field_of_record out _ i _ (bytes12_length e) hlt0 h0
  have ho1 := offset_field_of_record out _ (i + 1) _ (bytes12_length e2) hlt1 h1
  rw [ho0, ho1, hsucc]
  refine ⟨by omega, by omega, by omega, by omega⟩

/-- Witness of the amended C16 on the icon directory `icon_dir_ab`. -/
theorem reconstruct_icon_offsets_witness :
    icon_dir_ab.Type_ = 1 ∧ icon_dir_ab.Count = icon_dir_ab.Entries.length
      ∧ (∀ e ∈ icon_dir_ab.Entries, ∃ r ∈ [icon_a, icon_b], r.get_id = e.Id)
      ∧ ∃ out, reconstruct_icon sample_fs (some icon_dir_ab) [icon_a, icon_b] = some out
          ∧ ∀ i e e2, icon_dir_ab.Entries[i]? = some e →
              icon_dir_ab.Entries[i + 1]? = some e2 →
              offset_field out (i + 1)
                  = offset_field out i + (matched_raw sample_fs [icon_a, icon_b] e).length
                ∧ offset_field out i + (matched_raw sample_fs [icon_a, icon_b] e).length
                    ≤ offset_field out (i + 1)
                ∧ (0 < (matched_raw sample_fs [icon_a, icon_b] e).length →
                    offset_field out i < offset_field out (i + 1))
                ∧ ((matched_raw sample_fs [icon_a, icon_b] e).length = 0 →
                    offset_field out (i + 1) = offset_field out i) :=
  ⟨by decide, by decide, by decide,
    reconstruct_icon_offsets sample_fs icon_dir_ab [icon_a, icon_b] (by decide) (by decide)
      (by decide) (by decide)⟩

/-- C16 as stated fails three times. An icon without raw bytes leaves the next offset
equal, not greater (38 and 38). With a first payload of `2 ^ 32 - 38` bytes the second
offset wraps to 0, below the first (38). With `Count = 1` and two matched entries only
one record is written: at the place of the second offset there is nothing. -/
theorem reconstruct_icon_offsets_counterexample :
    (icon_dir_ab.Type_ = 1 ∧ icon_dir_ab.Count = icon_dir_ab.Entries.length
      ∧ (∀ e ∈ icon_dir_ab.Entries, ∃ r ∈ [icon_empty, icon_b], r.get_id = e.Id)
      ∧ ∃ out, reconstruct_icon sample_fs (some icon_dir_ab) [icon_empty, icon_b] = some out
          ∧ offset_field out 0 = 38 ∧ offset_field out 1 = 38)
    ∧ (icon_dir_ab.Type_ = 1 ∧ icon_dir_ab.Count = icon_dir_ab.Entries.length
      ∧ (∀ e ∈ icon_dir_ab.Entries, ∃ r ∈ [big_icon, small_icon], r.get_id = e.Id)
      ∧ (matched_raw big_fs [big_icon, small_icon] entry_a).length = 4294967258
      ∧ ∃ out, reconstruct_icon big_fs (some icon_dir_ab) [big_icon, small_icon] = some out
          ∧ offset_field out 0 = 38 ∧ offset_field out 1 = 0)
    ∧ (icon_dir_count1.Type_ = 1 ∧ icon_dir_count1.Entries.length = 2
      ∧ (∀ e ∈ icon_dir_count1.Entries, ∃ r ∈ [icon_a, icon_b], r.get_id = e.Id)
      ∧ ∃ out, reconstruct_icon sample_fs (some icon_dir_count1) [icon_a, icon_b] = some out
          ∧ out.length = 25 ∧ offset_field out 0 = 22 ∧ offset_field out 1 = 0) := by
  refine ⟨⟨by decide, by decide, by decide, _, rfl, by decide, by decide⟩,
    ⟨by decide, by decide, by decide, ?_, ?_⟩,
    ⟨by decide, by decide, by decide, _, rfl, by decide, by decide, by decide⟩⟩
  · rw [big_icon_raw, List.length_replicate]
  · have hM : ∀ e ∈ icon_dir_ab.Entries,
        ∃ r ∈ [big_icon, small_icon], r.get_id = e.Id := by
      decide
    obtain ⟨out, hout, _, _, hrec⟩ := reconstruct_icon_positions big_fs icon_dir_ab
      [big_icon, small_icon] (matched_raw big_fs [big_icon, small_icon]) (by decide)
      (fun e he => entry_payload_icon big_fs icon_dir_ab _ e (by decide) (hM e he))
    refine ⟨out, hout, ?_, ?_⟩
    · have h0 := (hrec 0 entry_a (by decide)).1
      have htake : icon_dir_ab.Entries.take 0 = [] := rfl
      have hpos : (6 + 16 * icon_dir_ab.Count + 0) % 2 ^ 32 = 38 := by decide
      rw [htake, payload_total, hpos] at h0
      exact offset_field_of_record out _ 0 38 (bytes12_length entry_a) (by decide) h0
    · have h1 := (hrec 1 entry_b (by decide)).1
      have htake : icon_dir_ab.Entries.take 1 = [entry_a] := by decide
      have hpt : payload_total (matched_raw big_fs [big_icon, small_icon]) [entry_a]
          = 4294967258 := by
        rw [payload_total, payload_total, big_icon_raw, List.length_replicate]
      have hpos : (6 + 16 * icon_dir_ab.Count + 4294967258) % 2 ^ 32 = 0 := by decide
      rw [htake, hpt, hpos] at h1
      exact offset_field_of_record out _ 1 0 (bytes12_length entry_b) (by decide) h1

/-- A `memcpy` does not change the size of the buffer. -/
theorem memcpy_length (res : List Nat) (pos : Nat) (src : List Nat) :
    (memcpy res pos src).length = res.length := by
  unfold memcpy
  simp only [List.length_append, List.length_take, List.length_drop, Nat.min_def]
  split <;> split <;> omega

/-- One iteration of the loop does not shrink the buffer unless it takes the branch of
line 416 (a directory that is no icon directory and raw data of at most four bytes). -/
theorem reconstruct_icon_body_length (fs : FileSystem) (d : group_icon_directory) (i : Nat)
    (e : group_icon_directory_entry) (icon : Resource) (res : List Nat)
    (h : d.Type_ = 1 ∨ 4 < (icon.get_raw_data fs).length) :
    res.length ≤ (reconstruct_icon_body fs d i e icon res).length := by
  unfold reconstruct_icon_body
  simp only []
  by_cases hT : d.Type_ = 1
  · rw [if_pos hT, List.length_append, memcpy_length, memcpy_length]
    exact Nat.le_add_right _ _
  · have h4 : (icon.get_raw_data fs).length > 4 := by
      rcases h with h | h
      · exact absurd h hT
      · exact h
    rw [if_neg hT, if_pos h4, List.length_append, memcpy_length, memcpy_length]
    exact Nat.le_add_right _ _

/-- The writes of the loop stay within the buffer as long as no iteration takes the
branch of line 416. -/
theorem reconstruct_icon_loop_writes_in_bounds (fs : FileSystem) (d : group_icon_directory)
    (resources : List Resource)
    (h : d.Type_ = 1 ∨ ∀ e ∈ d.Entries, ∀ icon, locate_icon resources e = some icon →
      4 < (icon.get_raw_data fs).length) :
    ∀ (n i : Nat) (res : List Nat), 6 + 16 * (i + n) ≤ res.length →
      ∀ w ∈ reconstruct_icon_loop_writes fs d resources n i res, write_in_bounds w = true := by
  intro n
  induction n with
  | zero => intro i res _ w hw; simp [reconstruct_icon_loop_writes] at hw
  | succ n ih =>
    intro i res hlen w hw
    rw [reconstruct_icon_loop_writes] at hw
    cases he : d.Entries[i]? with
    | none => rw [he] at hw; simp at hw
    | some e =>
      rw [he] at hw
      simp only [] at hw
      cases hloc : locate_icon resources e with
      | none => rw [hloc] at hw; simp at hw
      | some icon =>
        rw [hloc] at hw
        simp only [] at hw
        have hmem : e ∈ d.Entries := by
          rcases List.getElem?_eq_some.mp he with ⟨hlt, hget⟩
          rw [← hget]
          exact List.getElem_mem hlt
        have hbody : d.Type_ = 1 ∨ 4 < (icon.get_raw_data fs).length := by
          rcases h with h | h
          · exact Or.inl h
          · exact Or.inr (h e hmem icon hloc)
        rcases List.mem_append.mp hw with hw | hw
        · simp only [reconstruct_icon_body_writes, List.mem_cons, List.mem_singleton,
            List.not_mem_nil, or_false] at hw
          rcases hw with hw | hw
          · rw [hw]
            simp only [write_in_bounds, decide_eq_true_eq]
            omega
          · rw [hw]
            simp only [write_in_bounds, decide_eq_true_eq]
            omega
        · have hlen2 := reconstruct_icon_body_length fs d i e icon res hbody
          exact ih (i + 1) _ (by omega) w hw

/-- All writes of `reconstruct_icon` stay within the buffer for an icon directory, and for
any other directory in which every located resource has more than four raw bytes. -/
theorem reconstruct_icon_writes_in_bounds (fs : FileSystem) (d : group_icon_directory)
    (resources : List Resource)
    (h : d.Type_ = 1 ∨ ∀ e ∈ d.Entries, ∀ icon, locate_icon resources e = some icon →
      4 < (icon.get_raw_data fs).length) :
    ∀ w ∈ reconstruct_icon_writes fs d resources, write_in_bounds w = true := by
  intro w hw
  unfold reconstruct_icon_writes at hw
  rcases List.mem_cons.mp hw with hw | hw
  · rw [hw]
    simp only [write_in_bounds, decide_eq_true_eq]
    omega
  · exact reconstruct_icon_loop_writes_in_bounds fs d resources h d.Count 0 _
      (by rw [memcpy_length, List.length_replicate]; omega) w hw

/-- C20: the cursor directory `cursor_dir_ab` has `Count` equal to its number of entries,
and the resource of its first entry has three raw bytes. After line 417 has cleared the
buffer the loop goes on: the two `memcpy` for the second entry, at 22 and 34, are made
into a buffer of size 0. -/
theorem reconstruct_icon_writes_out_of_bounds :
    cursor_dir_ab.Count = cursor_dir_ab.Entries.length
      ∧ reconstruct_icon_writes sample_fs cursor_dir_ab [cursor_a, cursor_b]
          = [(0, 6, 38), (6, 12, 38), (18, 4, 38), (22, 12, 0), (34, 4, 0)]
      ∧ (reconstruct_icon_writes sample_fs cursor_dir_ab [cursor_a, cursor_b]).map
          write_in_bounds = [true, true, true, false, false] := by
  decide

/-! ### The resource chosen for an entry -/

/-- The first resource with the id of the entry is the one located. -/
theorem locate_icon_first (pre post : List Resource) (r : Resource)
    (e : group_icon_directory_entry) (hr : r.get_id = e.Id)
    (hpre : ∀ x ∈ pre, x.get_id ≠ e.Id) :
    locate_icon (pre ++ r :: post) e = some r := by
  unfold locate_icon
  have hnone : pre.find? (fun x => x.get_id == e.Id) = none := by
    rw [List.find?_eq_none]
    intro x hx
    simpa using hpre x hx
  have hb : (r.get_id == e.Id) = true := by simpa using hr
  rw [List.find?_append, hnone, Option.none_or, List.find?_cons, hb]

/-- A search that only accepts what a filter keeps is not changed by the filter. -/
theorem find?_filter_of_imp (p q : Resource → Bool) (l : List Resource)
    (h : ∀ x, p x = true → q x = true) : (l.filter q).find? p = l.find? p := by
  induction l with
  | nil => rfl
  | cons x xs ih =>
    by_cases hq : q x = true
    · rw [List.filter_cons_of_pos hq]
      by_cases hp : p x = true
      · rw [List.find?_cons_of_pos _ hp, List.find?_cons_of_pos _ hp]
      · rw [List.find?_cons_of_neg _ hp, List.find?_cons_of_neg _ hp, ih]
    · rw [List.filter_cons_of_neg hq]
      have hp : ¬ p x = true := fun hp => hq (h x hp)
      rw [List.find?_cons_of_neg _ hp, ih]

/-- Resources with the id of `r` that come after `r` in the table play no part in the
search for any entry. -/
theorem locate_icon_later (pre post post2 : List Resource) (r : Resource)
    (hpost : post.filter (fun x => x.get_id != r.get_id)
      = post2.filter (fun x => x.get_id != r.get_id))
    (e : group_icon_directory_entry) :
    locate_icon (pre ++ r :: post) e = locate_icon (pre ++ r :: post2) e := by
  unfold locate_icon
  rw [List.find?_append, List.find?_append]
  congr 1
  by_cases hr : (r.get_id == e.Id) = true
  · rw [List.find?_cons, List.find?_cons, hr]
  · rw [List.find?_cons, List.find?_cons, Bool.eq_false_iff.mpr hr]
    dsimp only
    have himp : ∀ x : Resource, (x.get_id == e.Id) = true → (x.get_id != r.get_id) = true := by
      intro x hx
      have hxe : x.get_id = e.Id := by simpa using hx
      have hre : ¬ r.get_id = e.Id := by simpa using hr
      simp only [bne_iff_ne, ne_eq]
      intro hxr
      exact hre (hxr ▸ hxe)
    rw [← find?_filter_of_imp _ _ post himp, ← find?_filter_of_imp _ _ post2 himp, hpost]

/-- The loop depends on the table through the search only. -/
theorem reconstruct_icon_loop_congr (fs : FileSystem) (d : group_icon_directory)
    (t1 t2 : List Resource) (h : ∀ e, locate_icon t1 e = locate_icon t2 e) :
    ∀ (n i : Nat) (res : List Nat),
      reconstruct_icon_loop fs d t1 n i res = reconstruct_icon_loop fs d t2 n i res := by
  intro n
  induction n with
  | zero => intro i res; rfl
  | succ n ih =>
    intro i res
    rw [reconstruct_icon_loop, reconstruct_icon_loop]
    cases d.Entries[i]? with
    | none => rfl
    | some e =>
      simp only []
      rw [h e]
      cases locate_icon t2 e with
      | none => rfl
      | some icon => exact ih _ _

/-- C19 (amended): when `r` is the earliest resource of the table with the id of the
entry `e`, `r` is the resource located for `e`, and the iteration of the loop for `e`
leaves the buffer, at its length, followed by the bytes appended for `e`: the raw bytes
of `r` in an icon directory, the raw bytes of `r` without their first four in any other
directory when `r` has more than four raw bytes. When `Count` is the number of entries,
every entry has a resource with its id and, unless the directory is an icon directory,
every located resource has more than four raw bytes, these bytes stand in the result
after the header, the records and the bytes appended for the entries before `e`.
Whatever resources with the id of `e` come later in the table, the result is the
same. -/
theorem reconstruct_icon_first_match (fs : FileSystem) (d : group_icon_directory)
    (pre post post2 : List Resource) (r : Resource) (e : group_icon_directory_entry)
    (hr : r.get_id = e.Id) (hpre : ∀ x ∈ pre, x.get_id ≠ e.Id)
    (hpost : post.filter (fun x => x.get_id != e.Id)
      = post2.filter (fun x => x.get_id != e.Id)) :
    locate_icon (pre ++ r :: post) e = some r
      ∧ (∀ (i n : Nat) (res : List Nat), d.Entries[i]? = some e →
          ∃ buffer, buffer.length = res.length
            ∧ (d.Type_ = 1 →
                reconstruct_icon_loop fs d (pre ++ r :: post) (n + 1) i res
                  = reconstruct_icon_loop fs d (pre ++ r :: post) n (i + 1)
                      (buffer ++ r.get_raw_data fs))
            ∧ (d.Type_ ≠ 1 → 4 < (r.get_raw_data fs).length →
                reconstruct_icon_loop fs d (pre ++ r :: post) (n + 1) i res
                  = reconstruct_icon_loop fs d (pre ++ r :: post) n (i + 1)
                      (buffer ++ (r.get_raw_data fs).drop 4)))
      ∧ (d.Count = d.Entries.length →
          (∀ e2 ∈ d.Entries, ∃ x ∈ pre ++ r :: post, x.get_id = e2.Id) →
          (d.Type_ = 1
            ∨ ∀ e2 ∈ d.Entries, 4 < (matched_raw fs (pre ++ r :: post) e2).length) →
          ∃ out, reconstruct_icon fs (some d) (pre ++ r :: post) = some out
            ∧ ∀ i, d.Entries[i]? = some e →
                (d.Type_ = 1 →
                  (out.drop (6 + 16 * d.Count
                      + payload_total (matched_raw fs (pre ++ r :: post))
                          (d.Entries.take i))).take (r.get_raw_data fs).length
                    = r.get_raw_data fs)
                ∧ (d.Type_ ≠ 1 →
                  (out.drop (6 + 16 * d.Count
                      + payload_total
                          (fun e2 => (matched_raw fs (pre ++ r :: post) e2).drop 4)
                          (d.Entries.take i))).take ((r.get_raw_data fs).length - 4)
                    = (r.get_raw_data fs).drop 4))
      ∧ reconstruct_icon fs (some d) (pre ++ r :: post)
          = reconstruct_icon fs (some d) (pre ++ r :: post2) := by
  have hloc := locate_icon_first pre post r e hr hpre
  have hraw : matched_raw fs (pre ++ r :: post) e = r.get_raw_data fs := by
    rw [matched_raw, hloc]
  refine ⟨hloc, ?_, ?_, ?_⟩
  · intro i n res hi
    refine ⟨memcpy (memcpy res (6 + i * 16) e.bytes12) (6 + (i + 1) * 16 - 4)
      (le32 ((memcpy res (6 + i * 16) e.bytes12).length % 2 ^ 32)), ?_, ?_, ?_⟩
    · rw [memcpy_length, memcpy_length]
    · intro hT
      rw [reconstruct_icon_loop, hi]
      simp only []
      rw [hloc]
      simp only [reconstruct_icon_body, hT, if_true]
    · intro hT h4
      rw [reconstruct_icon_loop, hi]
      simp only []
      rw [hloc]
      simp only [reconstruct_icon_body, hT, if_false, gt_iff_lt, h4, if_true]
  · intro hC hM hK
    by_cases hT : d.Type_ = 1
    · obtain ⟨out, hout, _, _, hrec⟩ := reconstruct_icon_positions fs d (pre ++ r :: post)
        (matched_raw fs (pre ++ r :: post)) hC
        (fun e2 he2 => entry_payload_icon fs d _ e2 hT (hM e2 he2))
      refine ⟨out, hout, ?_⟩
      intro i hi
      refine ⟨fun _ => ?_, fun hne => absurd hT hne⟩
      have h2 := (hrec i e hi).2
      rw [hraw] at h2
      exact h2
    · have hK2 : ∀ e2 ∈ d.Entries,
          4 < (matched_raw fs (pre ++ r :: post) e2).length := by
        rcases hK with hK | hK
        · exact absurd hK hT
        · exact hK
      obtain ⟨out, hout, _, _, hrec⟩ := reconstruct_icon_positions fs d (pre ++ r :: post)
        (fun e2 => (matched_raw fs (pre ++ r :: post) e2).drop 4) hC
        (fun e2 he2 => entry_payload_cursor fs d _ e2 hT (hM e2 he2) (hK2 e2 he2))
      refine ⟨out, hout, ?_⟩
      intro i hi
      refine ⟨fun h1 => absurd h1 hT, fun _ => ?_⟩
      have h2 := (hrec i e hi).2
      simp only [hraw, List.length_drop] at h2
      exact h2
  · unfold reconstruct_icon
    simp only []
    exact reconstruct_icon_loop_congr fs d _ _
      (locate_icon_later pre post post2 r (by rw [hr]; exact hpost)) _ _ _

/-- Witness of the amended C19: the table holds two icons with id 1, the first is
`icon_a`; its raw bytes 11, 12, 13 stand at position 38 of the result, and the result
is the same without the second icon. -/
theorem reconstruct_icon_first_match_witness :
    icon_a.get_id = entry_a.Id ∧ icon_a_later.get_id = entry_a.Id
      ∧ icon_a.get_raw_data sample_fs = [11, 12, 13]
      ∧ icon_a_later.get_raw_data sample_fs = [20, 21, 22]
      ∧ icon_dir_ab.Entries[0]? = some entry_a
      ∧ (∃ out, reconstruct_icon sample_fs (some icon_dir_ab)
            ([] ++ icon_a :: [icon_b, icon_a_later]) = some out
          ∧ ∀ i, icon_dir_ab.Entries[i]? = some entry_a →
              (icon_dir_ab.Type_ = 1 →
                (out.drop (6 + 16 * icon_dir_ab.Count
                    + payload_total
                        (matched_raw sample_fs ([] ++ icon_a :: [icon_b, icon_a_later]))
                        (icon_dir_ab.Entries.take i))).take
                      (icon_a.get_raw_data sample_fs).length
                  = icon_a.get_raw_data sample_fs)
              ∧ (icon_dir_ab.Type_ ≠ 1 →
                (out.drop (6 + 16 * icon_dir_ab.Count
                    + payload_total
                        (fun e2 => (matched_raw sample_fs
                          ([] ++ icon_a :: [icon_b, icon_a_later]) e2).drop 4)
                        (icon_dir_ab.Entries.take i))).take
                      ((icon_a.get_raw_data sample_fs).length - 4)
                  = (icon_a.get_raw_data sample_fs).drop 4))
      ∧ reconstruct_icon sample_fs (some icon_dir_ab) ([] ++ icon_a :: [icon_b, icon_a_later])
          = reconstruct_icon sample_fs (some icon_dir_ab) ([] ++ icon_a :: [icon_b]) :=
  ⟨by decide, by decide, by decide, by decide, by decide,
    (reconstruct_icon_first_match sample_fs icon_dir_ab [] [icon_b, icon_a_later]
      [icon_b] icon_a entry_a (by decide) (by decide) (by decide)).2.2.1
      (by decide) (by decide) (by decide),
    (reconstruct_icon_first_match sample_fs icon_dir_ab [] [icon_b, icon_a_later]
      [icon_b] icon_a entry_a (by decide) (by decide) (by decide)).2.2.2⟩

/-- C19 as stated fails for a cursor directory: two cursors of the table have the id 2 of
the entry; the earliest, `cursor_b`, has the raw bytes 14 to 21, and the bytes appended
for the entry, after the 6 header bytes and the 16 bytes of the record, are 18, 19, 20,
21: the raw bytes without their first four. -/
theorem reconstruct_icon_first_match_counterexample :
    cursor_dir_b.Count = cursor_dir_b.Entries.length
      ∧ cursor_b.get_id = entry_b.Id ∧ cursor_b_later.get_id = entry_b.Id
      ∧ cursor_b.get_raw_data sample_fs = [14, 15, 16, 17, 18, 19, 20, 21]
      ∧ cursor_b_later.get_raw_data sample_fs = [20, 21, 22, 23, 24, 25]
      ∧ ∃ out, reconstruct_icon sample_fs (some cursor_dir_b) [cursor_b, cursor_b_later]
            = some out
          ∧ out.length = 26
          ∧ out.drop (6 + 16 * cursor_dir_b.Count) = [18, 19, 20, 21]
          ∧ out.drop (6 + 16 * cursor_dir_b.Count) ≠ cursor_b.get_raw_data sample_fs := by
  refine ⟨by decide, by decide, by decide, by decide, by decide, _, rfl, by decide,
    by decide, by decide⟩

/-! ### Extraction -/

/-- No file name and no bytes are prepared for a resource of type `RT_ICON` or
`RT_CURSOR`. -/
theorem resource_output_icon_or_cursor (fs : FileSystem) (base : String)
    (table : List Resource) (r : Resource) (h : is_icon_or_cursor r = true) :
    resource_output fs base table r = none := by
  have h2 : r.get_type = "RT_ICON" ∨ r.get_type = "RT_CURSOR" := by
    simpa [is_icon_or_cursor] using h
  have n1 : ¬ (r.get_type = "RT_GROUP_ICON" ∨ r.get_type = "RT_GROUP_CURSOR") := by
    rcases h2 with h2 | h2 <;> rw [h2] <;> decide
  have n2 : ¬ r.get_type = "RT_MANIFEST" := by
    rcases h2 with h2 | h2 <;> rw [h2] <;> decide
  have n3 : ¬ r.get_type = "RT_BITMAP" := by
    rcases h2 with h2 | h2 <;> rw [h2] <;> decide
  rw [resource_output, if_neg n1, if_neg n2, if_neg n3, if_pos h2]

/-- The files written by the loop come after those written before it, there are at most
as many of them as resources of a type other than `RT_ICON` and `RT_CURSOR` among
those visited, and each bears the name prepared for such a resource. -/
theorem extract_loop_written (env : ExtractEnv) (fs : FileSystem) (base : String)
    (table : List Resource) :
    ∀ (rs : List Resource) (written : List (String × List Nat)),
      ∃ outs, (extract_loop env fs base table rs written).2 = written ++ outs
        ∧ outs.length ≤ (rs.filter (fun r => !is_icon_or_cursor r)).length
        ∧ ∀ w ∈ outs, ∃ r ∈ rs, is_icon_or_cursor r = false
            ∧ ∃ data, resource_output fs base table r = some (w.1, data) := by
  intro rs
  induction rs with
  | nil => intro written; exact ⟨[], by simp [extract_loop], by simp, by simp⟩
  | cons r rest ih =>
    intro written
    by_cases hic : is_icon_or_cursor r = true
    · have hnone := resource_output_icon_or_cursor fs base table r hic
      obtain ⟨outs, h1, h2, h3⟩ := ih written
      refine ⟨outs, ?_, ?_, ?_⟩
      · rw [extract_loop, hnone]; exact h1
      · rw [List.filter_cons_of_neg (by simp [hic])]; exact h2
      · intro w hw
        obtain ⟨x, hx, hrest⟩ := h3 w hw
        exact ⟨x, List.mem_cons_of_mem _ hx, hrest⟩
    · have hic2 : is_icon_or_cursor r = false := Bool.eq_false_iff.mpr hic
      have hfilter : ((r :: rest).filter (fun r => !is_icon_or_cursor r)).length
          = (rest.filter (fun r => !is_icon_or_cursor r)).length + 1 := by
        rw [List.filter_cons_of_pos (by simp [hic2])]; rfl
      rw [hfilter]
      have hskip : ∀ written2 : List (String × List Nat),
          ∃ outs, (extract_loop env fs base table rest written2).2 = written2 ++ outs
            ∧ outs.length ≤ (rest.filter (fun r => !is_icon_or_cursor r)).length + 1
            ∧ ∀ w ∈ outs, ∃ x ∈ r :: rest, is_icon_or_cursor x = false
                ∧ ∃ data, resource_output fs base table x = some (w.1, data) := by
        intro written2
        obtain ⟨outs, h1, h2, h3⟩ := ih written2
        refine ⟨outs, h1, by omega, ?_⟩
        intro w hw
        obtain ⟨x, hx, hrest⟩ := h3 w hw
        exact ⟨x, List.mem_cons_of_mem _ hx, hrest⟩
      rw [extract_loop]
      cases hout : resource_output fs base table r with
      | none => exact hskip written
      | some nd =>
        obtain ⟨name, data⟩ := nd
        dsimp only
        by_cases hlen : data.length = 0
        · rw [if_pos hlen]; exact hskip written
        · rw [if_neg hlen]
          by_cases hopen : env.fopen_ok written name = false
          · rw [if_pos hopen]
            exact ⟨[], by simp, by simp, by simp⟩
          · rw [if_neg hopen]
            by_cases hw : data.length ≠ env.fwrite_count written name data
            · rw [if_pos hw]
              refine ⟨[(name, data.take (env.fwrite_count written name data))], rfl,
                by simp, ?_⟩
              intro w hmem
              rw [List.mem_singleton] at hmem
              exact ⟨r, List.mem_cons_self _ _, hic2, data, by rw [hmem]; exact hout⟩
            · rw [if_neg hw]
              obtain ⟨outs, h1, h2, h3⟩ := ih (written ++ [(name, data)])
              refine ⟨(name, data) :: outs, ?_, ?_, ?_⟩
              · rw [h1, List.append_assoc]; rfl
              · rw [List.length_cons]; omega
              · intro w hmem
                rcases List.mem_cons.mp hmem with hmem | hmem
                · exact ⟨r, List.mem_cons_self _ _, hic2, data, by rw [hmem]; exact hout⟩
                · obtain ⟨x, hx, hrest⟩ := h3 w hmem
                  exact ⟨x, List.mem_cons_of_mem _ hx, hrest⟩

/-- When every resource visited is of type `RT_ICON` or `RT_CURSOR` the loop runs to its
end and writes nothing. -/
theorem extract_loop_only_icons (env : ExtractEnv) (fs : FileSystem) (base : String)
    (table : List Resource) :
    ∀ (rs : List Resource) (written : List (String × List Nat)),
      (∀ r ∈ rs, is_icon_or_cursor r = true) →
        extract_loop env fs base table rs written = (true, written) := by
  intro rs
  induction rs with
  | nil => intro written _; rfl
  | cons r rest ih =>
    intro written h
    rw [extract_loop, resource_output_icon_or_cursor fs base table r
      (h r (List.mem_cons_self _ _))]
    exact ih written (fun x hx => h x (List.mem_cons_of_mem _ hx))

/-- When the loop runs to its end, the files written are those of the eligible resources
visited, in the order of the visit. -/
theorem extract_loop_success (env : ExtractEnv) (fs : FileSystem) (base : String)
    (table : List Resource) :
    ∀ (rs : List Resource) (written : List (String × List Nat)),
      (extract_loop env fs base table rs written).1 = true →
        (extract_loop env fs base table rs written).2
          = written ++ rs.filterMap (eligible_output fs base table) := by
  intro rs
  induction rs with
  | nil => intro written _; simp [extract_loop]
  | cons r rest ih =>
    intro written
    rw [extract_loop]
    cases hout : resource_output fs base table r with
    | none =>
      intro hok
      have hel : eligible_output fs base table r = none := by
        rw [eligible_output, hout]
      rw [List.filterMap_cons_none hel]
      exact ih written hok
    | some nd =>
      obtain ⟨name, data⟩ := nd
      dsimp only
      by_cases hlen : data.length = 0
      · rw [if_pos hlen]
        intro hok
        have hel : eligible_output fs base table r = none := by
          rw [eligible_output, hout]; dsimp only; rw [if_pos hlen]
        rw [List.filterMap_cons_none hel]
        exact ih written hok
      · rw [if_neg hlen]
        have hel : eligible_output fs base table r = some (name, data) := by
          rw [eligible_output, hout]; dsimp only; rw [if_neg hlen]
        by_cases hopen : env.fopen_ok written name = false
        · rw [if_pos hopen]; intro hok; exact absurd hok (by simp)
        · rw [if_neg hopen]
          by_cases hw : data.length ≠ env.fwrite_count written name data
          · rw [if_pos hw]; intro hok; exact absurd hok (by simp)
          · rw [if_neg hw]
            intro hok
            rw [ih _ hok, List.filterMap_cons_some hel, List.append_assoc]
            rfl

/-- C18: `extract_resources` prepares no file for a resource of type `RT_ICON` or
`RT_CURSOR`; every file it writes bears the name prepared for a resource of another
type, and it writes at most as many files as the table has resources of other types;
for a table made only of `RT_ICON` and `RT_CURSOR` resources it writes no file, and
returns true once the destination folder is there. -/
theorem extract_resources_skips_icons (env : ExtractEnv) (fs : FileSystem) (pe : PE)
    (table : List Resource) :
    (∀ r, is_icon_or_cursor r = true →
        resource_output fs (env.basename pe.get_path) table r = none)
      ∧ (∀ w ∈ (extract_resources env fs pe table).2, ∃ r ∈ table,
          is_icon_or_cursor r = false
            ∧ ∃ data, resource_output fs (env.basename pe.get_path) table r
                = some (w.1, data))
      ∧ (extract_resources env fs pe table).2.length
          ≤ (table.filter (fun r => !is_icon_or_cursor r)).length
      ∧ ((∀ r ∈ table, is_icon_or_cursor r = true) →
          (extract_resources env fs pe table).2 = []
            ∧ (env.dir_ok = true → (extract_resources env fs pe table).1 = true)) := by
  refine ⟨fun r h => resource_output_icon_or_cursor fs _ table r h, ?_, ?_, ?_⟩
  · intro w hw
    by_cases hdir : env.dir_ok = false
    · rw [extract_resources, if_pos hdir] at hw
      exact absurd hw (by simp)
    · rw [extract_resources, if_neg hdir] at hw
      obtain ⟨outs, h1, _, h3⟩ :=
        extract_loop_written env fs (env.basename pe.get_path) table table []
      rw [h1, List.nil_append] at hw
      exact h3 w hw
  · by_cases hdir : env.dir_ok = false
    · rw [extract_resources, if_pos hdir]
      exact Nat.zero_le _
    · rw [extract_resources, if_neg hdir]
      obtain ⟨outs, h1, h2, _⟩ :=
        extract_loop_written env fs (env.basename pe.get_path) table table []
      rw [h1, List.nil_append]
      exact h2
  · intro hall
    by_cases hdir : env.dir_ok = false
    · rw [extract_resources, if_pos hdir]
      exact ⟨rfl, fun h => absurd h (by rw [hdir]; decide)⟩
    · rw [extract_resources, if_neg hdir,
        extract_loop_only_icons env fs _ table table [] hall]
      exact ⟨rfl, fun _ => rfl⟩

/-- Witness of C18: a table of one icon and one cursor gives no file and the result true;
with a manifest before and after them, only the two manifests are written. -/
theorem extract_resources_skips_icons_witness :
    (∀ r ∈ [icon_a, cursor_b], is_icon_or_cursor r = true)
      ∧ sample_env.dir_ok = true
      ∧ extract_resources sample_env sample_fs (sample_pe []) [icon_a, cursor_b] = (true, [])
      ∧ (extract_resources sample_env sample_fs (sample_pe [])
          [manifest_en, icon_a, cursor_b, manifest_fr]).2.length = 2
      ∧ ((extract_resources sample_env sample_fs (sample_pe []) [icon_a, cursor_b]).2 = []
          ∧ (sample_env.dir_ok = true →
            (extract_resources sample_env sample_fs (sample_pe [])
              [icon_a, cursor_b]).1 = true)) :=
  ⟨by decide, by decide, by decide, by decide,
    (extract_resources_skips_icons sample_env sample_fs (sample_pe [])
      [icon_a, cursor_b]).2.2.2 (by decide)⟩

/-- C15 (amended): when `extract_resources` returns true, the files it wrote are those of
the eligible resources of the table, one write per eligible resource in table order;
the number of files present afterwards is at most the number of eligible resources,
and equals it when the file names of the eligible resources are pairwise different. -/
theorem extract_resources_files (env : ExtractEnv) (fs : FileSystem) (pe : PE)
    (table : List Resource) (hok : (extract_resources env fs pe table).1 = true) :
    (extract_resources env fs pe table).2
        = table.filterMap (eligible_output fs (env.basename pe.get_path) table)
      ∧ (files_present (extract_resources env fs pe table).2).length
          ≤ (table.filterMap (eligible_output fs (env.basename pe.get_path) table)).length
      ∧ (((table.filterMap (eligible_output fs (env.basename pe.get_path) table)).map
            Prod.fst).Nodup →
          (files_present (extract_resources env fs pe table).2).length
            = (table.filterMap
                (eligible_output fs (env.basename pe.get_path) table)).length) := by
  have hw : (extract_resources env fs pe table).2
      = table.filterMap (eligible_output fs (env.basename pe.get_path) table) := by
    by_cases hdir : env.dir_ok = false
    · rw [extract_resources, if_pos hdir] at hok
      exact absurd hok (by simp)
    · rw [extract_resources, if_neg hdir] at hok ⊢
      rw [extract_loop_success env fs _ table table [] hok, List.nil_append]
  refine ⟨hw, ?_, ?_⟩
  · rw [hw, files_present]
    have h := List.Sublist.length_le (List.dedup_sublist
      ((table.filterMap (eligible_output fs (env.basename pe.get_path) table)).map Prod.fst))
    rw [List.length_map] at h
    exact h
  · intro hnd
    rw [hw, files_present, List.Nodup.dedup hnd, List.length_map]

/-- Witness of C15 (amended): a manifest and a bitmap give two files. -/
theorem extract_resources_files_witness :
    (extract_resources sample_env views_fs (sample_pe []) [manifest_en, bitmap_a]).1 = true
      ∧ (files_present (extract_resources sample_env views_fs (sample_pe [])
          [manifest_en, bitmap_a]).2) = ["sample_1_RT_MANIFEST.xml", "sample_5_RT_BITMAP.bmp"]
      ∧ ((extract_resources sample_env views_fs (sample_pe []) [manifest_en, bitmap_a]).2
        = [manifest_en, bitmap_a].filterMap
            (eligible_output views_fs (sample_env.basename (sample_pe []).get_path)
              [manifest_en, bitmap_a])
      ∧ (files_present (extract_resources sample_env views_fs (sample_pe [])
            [manifest_en, bitmap_a]).2).length
          ≤ ([manifest_en, bitmap_a].filterMap
              (eligible_output views_fs (sample_env.basename (sample_pe []).get_path)
                [manifest_en, bitmap_a])).length
      ∧ ((([manifest_en, bitmap_a].filterMap
              (eligible_output views_fs (sample_env.basename (sample_pe []).get_path)
                [manifest_en, bitmap_a])).map Prod.fst).Nodup →
          (files_present (extract_resources sample_env views_fs (sample_pe [])
            [manifest_en, bitmap_a]).2).length
            = ([manifest_en, bitmap_a].filterMap
                (eligible_output views_fs (sample_env.basename (sample_pe []).get_path)
                  [manifest_en, bitmap_a])).length)) :=
  ⟨by decide, by decide,
    extract_resources_files sample_env views_fs (sample_pe []) [manifest_en, bitmap_a]
      (by decide)⟩

/-- Counterexample to C15: the table holds the manifest with id 1 in two languages. Both
resources are eligible and they differ, yet both are given the file name
`sample_1_RT_MANIFEST.xml`: the extraction returns true, two writes were made and one
file is present, holding the bytes of the second resource. -/
theorem extract_resources_files_counterexample :
    manifest_en ≠ manifest_fr
      ∧ manifest_en.get_type = "RT_MANIFEST" ∧ manifest_fr.get_type = "RT_MANIFEST"
      ∧ eligible_output sample_fs "sample" [manifest_en, manifest_fr] manifest_en
          = some ("sample_1_RT_MANIFEST.xml", [11, 12, 13, 14])
      ∧ eligible_output sample_fs "sample" [manifest_en, manifest_fr] manifest_fr
          = some ("sample_1_RT_MANIFEST.xml", [15, 16, 17, 18])
      ∧ extract_resources sample_env sample_fs (sample_pe []) [manifest_en, manifest_fr]
          = (true, [("sample_1_RT_MANIFEST.xml", [11, 12, 13, 14]),
              ("sample_1_RT_MANIFEST.xml", [15, 16, 17, 18])])
      ∧ files_present (extract_resources sample_env sample_fs (sample_pe [])
          [manifest_en, manifest_fr]).2 = ["sample_1_RT_MANIFEST.xml"]
      ∧ ([manifest_en, manifest_fr].filterMap
          (eligible_output sample_fs "sample" [manifest_en, manifest_fr])).length = 2
      ∧ (files_present (extract_resources sample_env sample_fs (sample_pe [])
          [manifest_en, manifest_fr]).2).length
        ≠ ([manifest_en, manifest_fr].filterMap
          (eligible_output sample_fs "sample" [manifest_en, manifest_fr])).length := by
  decide

end sg
